import Mathlib

/-!
# Super Trunfo: comparison of two cards on a primary and a secondary attribute

Shallow embedding of `logicaSuperTrunfo.c`.

Modelling conventions.

* `Fp` stands for the values of the C types `double` and `long double`: a finite
  value is a rational, next to the two infinities and NaN (signed zeros are
  identified).
* `long double` is the x87 extended format: a significand of 64 bits, which holds
  every `unsigned long long` exactly.  Every `long double` operation of the
  source (`-`, `*`, `/` and the literal `1e-9L`) rounds its exact result to the
  nearest value with a 64-bit significand, ties to even (`arredLD`); its exponent
  range is not reached by operands that come from `double`s and is not modelled.
* The narrowing cast `(double)` is `toDouble`: rounding to the nearest value with
  a 53-bit significand, ties to even, with the subnormal spacing `2^-1074` below
  `2^-1022` and overflow to an infinity from `2^1024 - 2^970` on.
* Division reports a zero divisor as `none`, so that "no division by zero is
  performed" is a statement about a function returning `some`.
* `unsigned long long` and `unsigned int` fields are natural numbers, the enum
  `Atributo` is an integer, pointers that the source tests against `NULL` are
  `Option`s, and standard input is a list of bytes written as characters.
-/

namespace SuperTrunfo

/-! ## Rounding -/

/-- The nearest integer, ties to the even one. -/
def arredInt (t : ℚ) : ℤ :=
  if t - ⌊t⌋ < 1 / 2 then ⌊t⌋
  else if 1 / 2 < t - ⌊t⌋ then ⌊t⌋ + 1
  else if ⌊t⌋ % 2 = 0 then ⌊t⌋ else ⌊t⌋ + 1

/-- The binary exponent of a nonzero value: `2^e ≤ |x| < 2^(e+1)`. -/
def expoente (x : ℚ) : ℤ := Int.log 2 |x|

/-- The nearest multiple of the spacing `q`, ties to even. -/
def arredQ (q x : ℚ) : ℚ := (arredInt (x / q) : ℚ) * q

/-- Spacing of the `long double` values around `x`: 64 significant bits. -/
def quantoLD (x : ℚ) : ℚ := 2 ^ expoente x / 2 ^ 63

/-- Rounding of an exact result to `long double`. -/
def arredLD (x : ℚ) : ℚ := arredQ (quantoLD x) x

/-- Spacing of the `double` values around `x`: 53 significant bits, and the
subnormal spacing `2^-1074` below `2^-1022`. -/
def quantoD (x : ℚ) : ℚ := 2 ^ max (expoente x) (-1022) / 2 ^ 52

/-- Rounding to `double`, before the overflow test. -/
def arredD (x : ℚ) : ℚ := arredQ (quantoD x) x

/-! ## Floating-point values -/

/-- Values of `double` and `long double`. -/
inductive Fp where
  | fin (q : ℚ)
  | pinf
  | ninf
  | nan
  deriving DecidableEq

namespace Fp

/-- The C operator `a < b` (false as soon as an operand is NaN). -/
def lt : Fp → Fp → Bool
  | nan, _ => false
  | _, nan => false
  | fin x, fin y => decide (x < y)
  | fin _, pinf => true
  | fin _, ninf => false
  | pinf, _ => false
  | ninf, ninf => false
  | ninf, _ => true

/-- The C operator `a <= b` (false as soon as an operand is NaN). -/
def le : Fp → Fp → Bool
  | nan, _ => false
  | _, nan => false
  | fin x, fin y => decide (x ≤ y)
  | fin _, pinf => true
  | fin _, ninf => false
  | pinf, pinf => true
  | pinf, _ => false
  | ninf, _ => true

/-- The C operator `a > b`. -/
def gt (a b : Fp) : Bool := lt b a

/-- The C operator `a >= b`. -/
def ge (a b : Fp) : Bool := le b a

/-- The C operator `a - b` on `long double`. -/
def sub : Fp → Fp → Fp
  | nan, _ => nan
  | _, nan => nan
  | fin x, fin y => fin (arredLD (x - y))
  | fin _, pinf => ninf
  | fin _, ninf => pinf
  | pinf, pinf => nan
  | pinf, _ => pinf
  | ninf, ninf => nan
  | ninf, _ => ninf

/-- The infinity of the given sign: the product or quotient of an infinity and a
finite nonzero value. -/
def inf_sinal (positivo : Bool) : Fp := if positivo then pinf else ninf

/-- The C operator `a * b` on `long double`. -/
def mul : Fp → Fp → Fp
  | nan, _ => nan
  | _, nan => nan
  | fin x, fin y => fin (arredLD (x * y))
  | fin x, pinf => if x = 0 then nan else inf_sinal (decide (0 < x))
  | fin x, ninf => if x = 0 then nan else inf_sinal (decide (x < 0))
  | pinf, fin y => if y = 0 then nan else inf_sinal (decide (0 < y))
  | ninf, fin y => if y = 0 then nan else inf_sinal (decide (y < 0))
  | pinf, pinf => pinf
  | pinf, ninf => ninf
  | ninf, pinf => ninf
  | ninf, ninf => pinf

/-- The C operator `a / b` on `long double`; a zero divisor is reported as
`none`. -/
def div : Fp → Fp → Option Fp
  | nan, fin y => if y = 0 then none else some nan
  | nan, _ => some nan
  | _, nan => some nan
  | fin x, fin y => if y = 0 then none else some (fin (arredLD (x / y)))
  | fin _, pinf => some (fin 0)
  | fin _, ninf => some (fin 0)
  | pinf, fin y => if y = 0 then none else some (inf_sinal (decide (0 < y)))
  | ninf, fin y => if y = 0 then none else some (inf_sinal (decide (y < 0)))
  | pinf, pinf => some nan
  | pinf, ninf => some nan
  | ninf, pinf => some nan
  | ninf, ninf => some nan

/-- The library function `fabsl`. -/
def fabsl : Fp → Fp
  | fin x => fin |x|
  | pinf => pinf
  | ninf => pinf
  | nan => nan

/-- The library function `fmaxl`: a NaN operand is ignored in favour of the other. -/
def fmaxl : Fp → Fp → Fp
  | nan, b => b
  | a, nan => a
  | a, b => if lt a b then b else a

/-- The library classification `isnan`. -/
def isnan : Fp → Bool
  | nan => true
  | _ => false

/-- The library classification `isinf`. -/
def isinf : Fp → Bool
  | pinf => true
  | ninf => true
  | _ => false

end Fp

open Fp

/-- Magnitude from which a finite value rounds to infinity when narrowed to
`double`: `2^1024 - 2^970`, half a unit in the last place above `DBL_MAX`. -/
def DBL_OVF : ℚ := 2 ^ 1024 - 2 ^ 970

/-- The largest finite `double`, `DBL_MAX`. -/
def DBL_MAX : ℚ := 2 ^ 1024 - 2 ^ 971

/-- The cast `(double)v` of a `long double`: rounding to `double`, a result of
magnitude `2^1024` being the infinity of the same sign. -/
def toDouble : Fp → Fp
  | fin q =>
    if 2 ^ 1024 ≤ arredD q then pinf
    else if arredD q ≤ -2 ^ 1024 then ninf
    else fin (arredD q)
  | v => v

/-- The literal `1e-9L`, rounded to `long double`. -/
def LIT_1E_9L : ℚ := arredLD (1 / 1000000000)

/-- The cast `(long double)n` of an unsigned integer (exact). -/
def ofNat (n : Nat) : Fp := fin (n : ℚ)

/-! ## Data model -/

/-- The record `Carta`. -/
structure Carta where
  estado : String
  codigo : String
  cidade : String
  populacao : Nat
  area : Fp
  pib : Fp
  pontosTuristicos : Nat

/-- The enum `Atributo`, an integer type in C. -/
abbrev Atributo := Int

abbrev ATR_INVALIDO : Atributo := 0
abbrev ATR_POPULACAO : Atributo := 1
abbrev ATR_AREA : Atributo := 2
abbrev ATR_PIB : Atributo := 3
abbrev ATR_PONTOS_TURISTICOS : Atributo := 4
abbrev ATR_DENSIDADE : Atributo := 5
abbrev ATR_PIB_PER_CAPITA : Atributo := 6

/-- The record `AtributoInfo`. -/
structure AtributoInfo where
  id : Atributo
  nome : String
  unidade : String
  menorVence : Bool
  inteiro : Bool
  deriving DecidableEq

/-- The table `ATRIBUTOS`. -/
def ATRIBUTOS : List AtributoInfo :=
  [ ⟨ATR_INVALIDO, "Inválido", "", false, false⟩,
    ⟨ATR_POPULACAO, "População", "hab", false, true⟩,
    ⟨ATR_AREA, "Área", "km^2", false, false⟩,
    ⟨ATR_PIB, "PIB", "", false, false⟩,
    ⟨ATR_PONTOS_TURISTICOS, "Pontos turísticos", "pontos", false, true⟩,
    ⟨ATR_DENSIDADE, "Densidade", "hab/km^2", true, false⟩,
    ⟨ATR_PIB_PER_CAPITA, "PIB per capita", "", false, false⟩ ]

/-- The entry `ATRIBUTOS[0]`, the invalid sentinel. -/
def ATRIBUTO_INVALIDO : AtributoInfo := ⟨ATR_INVALIDO, "Inválido", "", false, false⟩

/-- The acceptance test `v >= 0.0` that `cadastrar_carta` applies to the area and
to the PIB before storing them. -/
def aceita_real (v : Fp) : Bool := Fp.ge v (fin 0)

/-- A card as `cadastrar_carta` builds it: area and PIB passed `v >= 0.0`, and
every field fits its C type (area and PIB are `double`s, the population an
`unsigned long long`, the landmark count an `unsigned int`). -/
def Carta.valida (c : Carta) : Prop :=
  aceita_real c.area = true ∧ aceita_real c.pib = true ∧
  toDouble c.area = c.area ∧ toDouble c.pib = c.pib ∧
  c.populacao < 2 ^ 64 ∧ c.pontosTuristicos < 2 ^ 32

/-! ## Derived attributes and attribute values -/

/-- The function `densidade`. -/
def densidade : Option Carta → Option Fp
  | none => some nan
  | some c =>
    if Fp.le c.area (fin 0) then some pinf
    else (Fp.div (ofNat c.populacao) c.area).map toDouble

/-- The function `pib_per_capita`. -/
def pib_per_capita : Option Carta → Option Fp
  | none => some nan
  | some c =>
    if c.populacao = 0 then some (fin 0)
    else (Fp.div c.pib (ofNat c.populacao)).map toDouble

/-- The function `get_attr_info`. -/
def get_attr_info (a : Atributo) : AtributoInfo :=
  if a < ATR_INVALIDO ∨ a > ATR_PIB_PER_CAPITA then ATRIBUTOS.getD 0 ATRIBUTO_INVALIDO
  else ATRIBUTOS.getD a.toNat ATRIBUTO_INVALIDO

/-- The function `attr_value_ld`. -/
def attr_value_ld (c : Carta) (a : Atributo) : Option Fp :=
  if a = ATR_POPULACAO then some (ofNat c.populacao)
  else if a = ATR_AREA then some c.area
  else if a = ATR_PIB then some c.pib
  else if a = ATR_PONTOS_TURISTICOS then some (ofNat c.pontosTuristicos)
  else if a = ATR_DENSIDADE then densidade (some c)
  else if a = ATR_PIB_PER_CAPITA then pib_per_capita (some c)
  else some nan

/-! ## Comparison -/

/-- The function `is_nan_or_inf`: the classification is made after narrowing to
`double`. -/
def is_nan_or_inf (v : Fp) : Bool :=
  Fp.isnan (toDouble v) || Fp.isinf (toDouble v)

/-- The function `cmp_long_double`. -/
def cmp_long_double (a b : Fp) (integer : Bool) : Int :=
  if integer then
    if Fp.lt a b then -1
    else if Fp.gt a b then 1
    else 0
  else if is_nan_or_inf a || is_nan_or_inf b then
    if is_nan_or_inf a && is_nan_or_inf b then 0
    else if is_nan_or_inf a then 1 else -1
  else
    let diff := Fp.fabsl (Fp.sub a b)
    let scale := Fp.fmaxl (fin 1) (Fp.fmaxl (Fp.fabsl a) (Fp.fabsl b))
    let eps := Fp.mul (fin LIT_1E_9L) scale
    if Fp.le diff eps then 0
    else if Fp.lt a b then -1 else 1

/-- The locals `vencedorPrimario` and `vencedorFinal` of `comparar_duplo`, on
which everything it prints about the outcome depends. -/
structure Resultado where
  vencedorPrimario : Int
  vencedorFinal : Int
  deriving DecidableEq

/-- The function `comparar_duplo`. -/
def comparar_duplo (c1 c2 : Carta) (prim sec : Atributo) : Option Resultado := do
  let ip := get_attr_info prim
  let isec := get_attr_info sec
  let v1p ← attr_value_ld c1 prim
  let v2p ← attr_value_ld c2 prim
  let cmpP := cmp_long_double v1p v2p ip.inteiro
  let vencedorPrimario : Int :=
    if cmpP = 0 then -1
    else if ip.menorVence then (if cmpP < 0 then 1 else 2)
    else (if cmpP > 0 then 1 else 2)
  if vencedorPrimario = -1 then
    let v1s ← attr_value_ld c1 sec
    let v2s ← attr_value_ld c2 sec
    let cmpS := cmp_long_double v1s v2s isec.inteiro
    let vencedorFinal : Int :=
      if cmpS = 0 then 0
      else if isec.menorVence then (if cmpS < 0 then 1 else 2)
      else (if cmpS > 0 then 1 else 2)
    pure ⟨vencedorPrimario, vencedorFinal⟩
  else
    pure ⟨vencedorPrimario, vencedorPrimario⟩

/-- The stage message printed by `comparar_duplo`. -/
inductive Justificativa where
  | secundario
  | primario
  deriving DecidableEq

/-- What `comparar_duplo` prints about the stage: nothing on a final tie,
otherwise the stage selected by the test `vencedorPrimario == -1`. -/
def justificativa (r : Resultado) : Option Justificativa :=
  if r.vencedorFinal = 0 then none
  else if r.vencedorPrimario = -1 then some Justificativa.secundario
  else some Justificativa.primario

/-! ## Reading the two attributes -/

/-- The library function `isspace` in the C locale. -/
def isspace (c : Char) : Bool :=
  c = ' ' || (9 ≤ c.toNat && c.toNat ≤ 13)

/-- The digits loop of the library function `strtol`. -/
def atoi_digitos : List Char → Int → Int
  | [], acc => acc
  | c :: cs, acc =>
    if c.isDigit then atoi_digitos cs (acc * 10 + ((c.toNat : Int) - 48)) else acc

/-- The value `strtol` returns for a decimal numeral: out-of-range values are
clamped to `LONG_MIN` and `LONG_MAX` (64 bits). -/
def strtol_satura (v : Int) : Int :=
  max (-(2 ^ 63)) (min v (2 ^ 63 - 1))

/-- The conversion of a `long` to `int`: the low 32 bits, in two's complement. -/
def long_para_int (v : Int) : Int :=
  (v + 2 ^ 31) % 2 ^ 32 - 2 ^ 31

/-- The library function `atoi`, which is `(int) strtol(s, NULL, 10)`: leading
white space, an optional sign, then decimal digits; `0` when there is no
digit. -/
def atoi (s : List Char) : Int :=
  match s.dropWhile isspace with
  | '-' :: cs => long_para_int (strtol_satura (- atoi_digitos cs 0))
  | '+' :: cs => long_para_int (strtol_satura (atoi_digitos cs 0))
  | cs => long_para_int (strtol_satura (atoi_digitos cs 0))

/-- Characters taken by `fgets`: at most `k`, stopping after a newline. -/
def fgets_aux : Nat → List Char → List Char × List Char
  | 0, cs => ([], cs)
  | _ + 1, [] => ([], [])
  | k + 1, c :: cs =>
    if c = Char.ofNat 10 then ([c], cs)
    else ((c :: (fgets_aux k cs).1), (fgets_aux k cs).2)

/-- The library function `fgets` on standard input: `none` at end of input,
otherwise the buffer read and the input that remains. -/
def fgets (bufsz : Nat) (entrada : List Char) : Option (List Char × List Char) :=
  match entrada with
  | [] => none
  | _ => some (fgets_aux (bufsz - 1) entrada)

/-- The function `trim_nl`. -/
def trim_nl (s : List Char) : List Char :=
  (s.reverse.dropWhile (fun c => c = Char.ofNat 10 || c = Char.ofNat 13)).reverse

/-- The function `read_line` (the prompt is output only). -/
def read_line (bufsz : Nat) (entrada : List Char) : Option (List Char × List Char) :=
  match fgets bufsz entrada with
  | none => none
  | some (buf, resto) => some (trim_nl buf, resto)

/-- The loop of `ler_opcao_atributo`, bounded by a number of iterations; `none`
when the bound is exhausted. -/
def ler_opcao_atributo_laco : Nat → Atributo → List Char → Option (Atributo × List Char)
  | 0, _, _ => none
  | n + 1, exclui, entrada =>
    match read_line 64 entrada with
    | none => some (ATR_INVALIDO, entrada)
    | some (buf, resto) =>
      let op := atoi buf
      if op ≥ ATR_POPULACAO ∧ op ≤ ATR_PIB_PER_CAPITA ∧ op ≠ exclui then some (op, resto)
      else ler_opcao_atributo_laco n exclui resto

/-- The function `ler_opcao_atributo`: every iteration that does not return
consumes at least one character, so one iteration more than the length of the
input is enough. -/
def ler_opcao_atributo (exclui : Atributo) (entrada : List Char) :
    Option (Atributo × List Char) :=
  ler_opcao_atributo_laco (entrada.length + 1) exclui entrada

/-- One run of `menu_comparar` that reaches the comparator: the arguments passed
to `comparar_duplo`, what it computed, and the input left. -/
structure Chamada where
  prim : Atributo
  sec : Atributo
  resultado : Option Resultado
  resto : List Char

/-- The function `menu_comparar`; `none` when a card pointer is null or the
attribute loop did not return. -/
def menu_comparar (c1 c2 : Option Carta) (entrada : List Char) : Option Chamada :=
  match c1, c2 with
  | some a, some b =>
    match ler_opcao_atributo ATR_INVALIDO entrada with
    | none => none
    | some (prim, e1) =>
      match ler_opcao_atributo prim e1 with
      | none => none
      | some (sec, e2) => some ⟨prim, sec, comparar_duplo a b prim sec, e2⟩
  | _, _ => none

/-- Exchange of the two card positions in a winner code: `1` and `2` are swapped,
the tie codes `0` and `-1` stay. -/
def espelho (v : Int) : Int :=
  if v = 1 then 2 else if v = 2 then 1 else v

/-! ## Concrete cards and values used in the scenarios -/

/-- The `double` `0x1.12e0be826d695p-30`, the one nearest to `1e-9`. -/
def VALOR_A : ℚ := 4835703278458517 / 2 ^ 82

/-- The `double` `0x1.34668c0a57af8p-84`. -/
def VALOR_B : ℚ := 5425440280115960 / 2 ^ 136


/-- A card with the given numeric fields. -/
def carta (populacao : Nat) (area pib : ℚ) (pontos : Nat) : Carta :=
  ⟨"CE", "A01", "Mucambo", populacao, fin area, fin pib, pontos⟩

/-! ## Rounding facts -/

theorem arredInt_perto (t : ℚ) :
    |t - arredInt t| < 1 / 2 ∨ (|t - arredInt t| = 1 / 2 ∧ arredInt t % 2 = 0) := by
  have h1 : (⌊t⌋ : ℚ) ≤ t := Int.floor_le t
  have h2 : t < ⌊t⌋ + 1 := Int.lt_floor_add_one t
  unfold arredInt
  by_cases hA : t - ⌊t⌋ < 1 / 2
  · left
    rw [if_pos hA, abs_of_nonneg (by linarith)]
    exact hA
  · rw [if_neg hA]
    by_cases hB : 1 / 2 < t - ⌊t⌋
    · left
      rw [if_pos hB]
      push_cast
      rw [abs_of_neg (by linarith)]
      linarith
    · rw [if_neg hB]
      have hd : t - ⌊t⌋ = 1 / 2 := le_antisymm (not_lt.mp hB) (not_lt.mp hA)
      right
      by_cases hE : ⌊t⌋ % 2 = 0
      · rw [if_pos hE]
        refine ⟨?_, hE⟩
        rw [abs_of_nonneg (by linarith)]
        exact hd
      · rw [if_neg hE]
        refine ⟨?_, by omega⟩
        push_cast
        rw [abs_of_neg (by linarith)]
        linarith

theorem arredInt_unico (t : ℚ) (n : ℤ)
    (h : |t - n| < 1 / 2 ∨ (|t - n| = 1 / 2 ∧ n % 2 = 0)) : arredInt t = n := by
  have hs := arredInt_perto t
  have hA : |t - arredInt t| ≤ 1 / 2 := by
    rcases hs with h1 | h1
    · exact le_of_lt h1
    · exact le_of_eq h1.1
  have hN : |t - n| ≤ 1 / 2 := by
    rcases h with h1 | h1
    · exact le_of_lt h1
    · exact le_of_eq h1.1
  have hA' := abs_le.mp hA
  have hN' := abs_le.mp hN
  have hd1 : ((arredInt t - n : ℤ) : ℚ) ≤ 1 := by push_cast; linarith [hA'.1, hA'.2, hN'.1, hN'.2]
  have hd2 : (-1 : ℚ) ≤ ((arredInt t - n : ℤ) : ℚ) := by
    push_cast; linarith [hA'.1, hA'.2, hN'.1, hN'.2]
  have hd1' : arredInt t - n ≤ 1 := by exact_mod_cast hd1
  have hd2' : -1 ≤ arredInt t - n := by exact_mod_cast hd2
  by_contra hne
  have hcase : arredInt t - n = 1 ∨ arredInt t - n = -1 := by omega
  -- both distances are exactly one half, so both are even
  have hboth : |t - arredInt t| = 1 / 2 ∧ |t - n| = 1 / 2 := by
    rcases hcase with hc | hc
    · have hq : ((arredInt t : ℤ) : ℚ) = n + 1 := by
        have : arredInt t = n + 1 := by omega
        rw [this]; push_cast; ring
      constructor
      · rw [hq] at hA' ⊢
        rw [abs_of_nonpos (by linarith [hN'.2])]
        linarith [hN'.2, hA'.1]
      · rw [hq] at hA'
        rw [abs_of_nonneg (by linarith [hA'.1])]
        linarith [hN'.2, hA'.1]
    · have hq : ((arredInt t : ℤ) : ℚ) = n - 1 := by
        have : arredInt t = n - 1 := by omega
        rw [this]; push_cast; ring
      constructor
      · rw [hq] at hA' ⊢
        rw [abs_of_nonneg (by linarith [hN'.1])]
        linarith [hN'.1, hA'.2]
      · rw [hq] at hA'
        rw [abs_of_nonpos (by linarith [hA'.2])]
        linarith [hN'.1, hA'.2]
  have e1 : arredInt t % 2 = 0 := by
    rcases hs with h1 | h1
    · rw [hboth.1] at h1; exact absurd h1 (lt_irrefl _)
    · exact h1.2
  have e2 : n % 2 = 0 := by
    rcases h with h1 | h1
    · rw [hboth.2] at h1; exact absurd h1 (lt_irrefl _)
    · exact h1.2
  omega

theorem arredInt_erro (t : ℚ) : |t - arredInt t| ≤ 1 / 2 := by
  rcases arredInt_perto t with h | h
  · exact le_of_lt h
  · exact le_of_eq h.1

theorem arredInt_inteiro (n : ℤ) : arredInt (n : ℚ) = n :=
  arredInt_unico _ n (Or.inl (by simp))

theorem arredInt_neg (t : ℚ) : arredInt (-t) = - arredInt t := by
  apply arredInt_unico
  have hs := arredInt_perto t
  have habs : |(-t) - ((-arredInt t : ℤ) : ℚ)| = |t - arredInt t| := by
    push_cast
    rw [← abs_neg]
    congr 1
    ring
  rw [habs]
  rcases hs with h | h
  · exact Or.inl h
  · exact Or.inr ⟨h.1, by omega⟩

theorem arredInt_mono {t u : ℚ} (h : t ≤ u) : arredInt t ≤ arredInt u := by
  rcases eq_or_lt_of_le h with h | h
  · rw [h]
  · have h1 := abs_le.mp (arredInt_erro t)
    have h2 := abs_le.mp (arredInt_erro u)
    have hq : ((arredInt t - arredInt u : ℤ) : ℚ) < 1 := by
      push_cast; linarith [h1.1, h2.2]
    have hz : arredInt t - arredInt u < 1 := by exact_mod_cast hq
    omega

theorem arredQ_erro (q x : ℚ) (hq : 0 < q) : |arredQ q x - x| ≤ q / 2 := by
  unfold arredQ
  have h := arredInt_erro (x / q)
  have hx : x = x / q * q := by field_simp
  have : (arredInt (x / q) : ℚ) * q - x = -((x / q - arredInt (x / q)) * q) := by
    nth_rewrite 2 [hx]; ring
  rw [this, abs_neg, abs_mul, abs_of_pos hq]
  calc |x / q - ↑(arredInt (x / q))| * q ≤ 1 / 2 * q :=
        mul_le_mul_of_nonneg_right h (le_of_lt hq)
    _ = q / 2 := by ring

theorem arredQ_neg (q x : ℚ) : arredQ q (-x) = - arredQ q x := by
  unfold arredQ
  rw [neg_div, arredInt_neg]
  push_cast
  ring

theorem arredQ_multiplo (q : ℚ) (hq : 0 < q) (n : ℤ) : arredQ q (n * q) = n * q := by
  unfold arredQ
  have : (n : ℚ) * q / q = n := by field_simp
  rw [this, arredInt_inteiro]

theorem arredQ_mono (q : ℚ) (hq : 0 < q) {x y : ℚ} (h : x ≤ y) : arredQ q x ≤ arredQ q y := by
  unfold arredQ
  have h1 : x / q ≤ y / q := div_le_div_of_nonneg_right h (le_of_lt hq)
  have h2 : (arredInt (x / q) : ℚ) ≤ arredInt (y / q) := by exact_mod_cast arredInt_mono h1
  exact mul_le_mul_of_nonneg_right h2 (le_of_lt hq)

theorem expoente_neg (x : ℚ) : expoente (-x) = expoente x := by
  unfold expoente; rw [abs_neg]

theorem expoente_cotas (x : ℚ) (hx : x ≠ 0) :
    (2 : ℚ) ^ expoente x ≤ |x| ∧ |x| < (2 : ℚ) ^ (expoente x + 1) := by
  have hpos : 0 < |x| := abs_pos.mpr hx
  have h1 := Int.zpow_log_le_self (b := 2) (r := |x|) (by norm_num) hpos
  have h2 := Int.lt_zpow_succ_log_self (b := 2) (by norm_num) |x|
  exact ⟨by exact_mod_cast h1, by exact_mod_cast h2⟩

theorem expoente_unico (x : ℚ) (e : ℤ) (h1 : (2 : ℚ) ^ e ≤ |x|) (h2 : |x| < (2 : ℚ) ^ (e + 1)) :
    expoente x = e := by
  have hpos : 0 < |x| := lt_of_lt_of_le (by positivity) h1
  have a1 : e ≤ Int.log 2 |x| :=
    (Int.zpow_le_iff_le_log (b := 2) (by norm_num) hpos).mp (by exact_mod_cast h1)
  have a2 : Int.log 2 |x| < e + 1 :=
    (Int.lt_zpow_iff_log_lt (b := 2) (by norm_num) hpos).mp (by exact_mod_cast h2)
  unfold expoente
  omega

theorem quantoLD_pos (x : ℚ) : 0 < quantoLD x := by
  unfold quantoLD; positivity

theorem quantoD_pos (x : ℚ) : 0 < quantoD x := by
  unfold quantoD; positivity

theorem arredLD_zero : arredLD 0 = 0 := by
  simp [arredLD, arredQ, arredInt]

theorem arredD_zero : arredD 0 = 0 := by
  simp [arredD, arredQ, arredInt]

theorem arredLD_neg (x : ℚ) : arredLD (-x) = - arredLD x := by
  unfold arredLD quantoLD
  rw [expoente_neg, arredQ_neg]

theorem arredD_neg (x : ℚ) : arredD (-x) = - arredD x := by
  unfold arredD quantoD
  rw [expoente_neg, arredQ_neg]

theorem arredLD_erro (x : ℚ) : |arredLD x - x| ≤ |x| / 2 ^ 64 := by
  by_cases hx : x = 0
  · subst hx; simp [arredLD_zero]
  · have h := arredQ_erro (quantoLD x) x (quantoLD_pos x)
    have hc := (expoente_cotas x hx).1
    unfold arredLD
    refine le_trans h ?_
    unfold quantoLD
    have : (2 : ℚ) ^ expoente x / 2 ^ 63 / 2 = 2 ^ expoente x / 2 ^ 64 := by ring
    rw [this]
    exact div_le_div_of_nonneg_right hc (by positivity)

theorem arredLD_nonneg (x : ℚ) (hx : 0 ≤ x) : 0 ≤ arredLD x := by
  have h := arredQ_mono (quantoLD x) (quantoLD_pos x) hx
  have h0 : arredQ (quantoLD x) 0 = 0 := by simp [arredQ, arredInt]
  rw [h0] at h
  exact h

theorem arredD_nonneg (x : ℚ) (hx : 0 ≤ x) : 0 ≤ arredD x := by
  have h := arredQ_mono (quantoD x) (quantoD_pos x) hx
  have h0 : arredQ (quantoD x) 0 = 0 := by simp [arredQ, arredInt]
  rw [h0] at h
  exact h

theorem arredLD_eq_zero (x : ℚ) (h : arredLD x = 0) : x = 0 := by
  by_contra hx
  have he := arredLD_erro x
  rw [h, zero_sub, abs_neg] at he
  have hpos : 0 < |x| := abs_pos.mpr hx
  have : |x| / 2 ^ 64 < |x| := by
    rw [div_lt_iff₀ (by positivity)]
    nlinarith
  linarith

/-- A power of two with a non-negative integer exponent is an integer. -/
theorem zpow_nonneg_inteiro (j : ℤ) (hj : 0 ≤ j) : ∃ m : ℤ, (2 : ℚ) ^ j = m := by
  obtain ⟨k, rfl⟩ := Int.eq_ofNat_of_zero_le hj
  exact ⟨2 ^ k, by push_cast; rw [zpow_natCast]⟩

theorem expoente_lt (x : ℚ) (hx : x ≠ 0) (e : ℤ) (h : |x| < (2 : ℚ) ^ e) : expoente x < e := by
  have hpos : 0 < |x| := abs_pos.mpr hx
  exact (Int.lt_zpow_iff_log_lt (b := 2) (by norm_num) hpos).mp (by exact_mod_cast h)

theorem expoente_ge (x : ℚ) (hx : x ≠ 0) (e : ℤ) (h : (2 : ℚ) ^ e ≤ |x|) : e ≤ expoente x := by
  have hpos : 0 < |x| := abs_pos.mpr hx
  exact (Int.zpow_le_iff_le_log (b := 2) (by norm_num) hpos).mp (by exact_mod_cast h)

/-- A value `n * 2^k` with `|n| < 2^64` is a `long double`. -/
theorem arredLD_repr (n k : ℤ) (hn : |n| < 2 ^ 64) :
    arredLD ((n : ℚ) * 2 ^ k) = (n : ℚ) * 2 ^ k := by
  by_cases hx : (n : ℚ) * 2 ^ k = 0
  · rw [hx, arredLD_zero]
  · have h2 : (0 : ℚ) < 2 ^ k := by positivity
    have hnq : |(n : ℚ)| < 2 ^ 64 := by exact_mod_cast hn
    have hlt : |(n : ℚ) * 2 ^ k| < (2 : ℚ) ^ (k + 64) := by
      rw [abs_mul, abs_of_pos h2, zpow_add₀ (by norm_num : (2 : ℚ) ≠ 0)]
      have : (2 : ℚ) ^ (64 : ℤ) = 2 ^ 64 := by norm_num
      rw [this, mul_comm]
      exact mul_lt_mul_of_pos_left hnq h2
    have he := expoente_lt _ hx _ hlt
    obtain ⟨m, hm⟩ := zpow_nonneg_inteiro (k + 63 - expoente ((n : ℚ) * 2 ^ k)) (by omega)
    have hq : (n : ℚ) * 2 ^ k = ((n * m : ℤ) : ℚ) * quantoLD ((n : ℚ) * 2 ^ k) := by
      unfold quantoLD
      push_cast
      rw [← hm, zpow_sub₀ (by norm_num : (2 : ℚ) ≠ 0), zpow_add₀ (by norm_num : (2 : ℚ) ≠ 0)]
      have : (2 : ℚ) ^ (63 : ℤ) = 2 ^ 63 := by norm_num
      rw [this]
      field_simp
      ring
    unfold arredLD
    nth_rewrite 2 [hq]
    rw [arredQ_multiplo _ (quantoLD_pos _), ← hq]

/-- A value `n * 2^k` with `|n| < 2^53` and `k ≥ -1074` is a `double`, up to
overflow. -/
theorem arredD_repr (n k : ℤ) (hn : |n| < 2 ^ 53) (hk : -1074 ≤ k) :
    arredD ((n : ℚ) * 2 ^ k) = (n : ℚ) * 2 ^ k := by
  by_cases hx : (n : ℚ) * 2 ^ k = 0
  · rw [hx, arredD_zero]
  · have h2 : (0 : ℚ) < 2 ^ k := by positivity
    have hnq : |(n : ℚ)| < 2 ^ 53 := by exact_mod_cast hn
    have hlt : |(n : ℚ) * 2 ^ k| < (2 : ℚ) ^ (k + 53) := by
      rw [abs_mul, abs_of_pos h2, zpow_add₀ (by norm_num : (2 : ℚ) ≠ 0)]
      have : (2 : ℚ) ^ (53 : ℤ) = 2 ^ 53 := by norm_num
      rw [this, mul_comm]
      exact mul_lt_mul_of_pos_left hnq h2
    have he := expoente_lt _ hx _ hlt
    obtain ⟨m, hm⟩ := zpow_nonneg_inteiro
      (k + 52 - max (expoente ((n : ℚ) * 2 ^ k)) (-1022)) (by
        rcases max_cases (expoente ((n : ℚ) * 2 ^ k)) (-1022) with h | h <;> omega)
    have hq : (n : ℚ) * 2 ^ k = ((n * m : ℤ) : ℚ) * quantoD ((n : ℚ) * 2 ^ k) := by
      unfold quantoD
      push_cast
      rw [← hm, zpow_sub₀ (by norm_num : (2 : ℚ) ≠ 0), zpow_add₀ (by norm_num : (2 : ℚ) ≠ 0)]
      have : (2 : ℚ) ^ (52 : ℤ) = 2 ^ 52 := by norm_num
      rw [this]
      field_simp
      ring
    unfold arredD
    nth_rewrite 2 [hq]
    rw [arredQ_multiplo _ (quantoD_pos _), ← hq]

/-- Evaluation of `arredLD` from the binade of the argument and the nearest
multiple of the quantum. -/
theorem arredLD_aval (x : ℚ) (e n : ℤ) (h1 : (2 : ℚ) ^ e ≤ |x|) (h2 : |x| < (2 : ℚ) ^ (e + 1))
    (h : |x / (2 ^ e / 2 ^ 63) - n| < 1 / 2 ∨
      (|x / (2 ^ e / 2 ^ 63) - n| = 1 / 2 ∧ n % 2 = 0)) :
    arredLD x = (n : ℚ) * (2 ^ e / 2 ^ 63) := by
  unfold arredLD quantoLD arredQ
  rw [expoente_unico x e h1 h2, arredInt_unico _ n h]

/-- Evaluation of `arredD` from the binade of the argument and the nearest
multiple of the quantum. -/
theorem arredD_aval (x : ℚ) (e n : ℤ) (h1 : (2 : ℚ) ^ e ≤ |x|) (h2 : |x| < (2 : ℚ) ^ (e + 1))
    (h : |x / (2 ^ max e (-1022) / 2 ^ 52) - n| < 1 / 2 ∨
      (|x / (2 ^ max e (-1022) / 2 ^ 52) - n| = 1 / 2 ∧ n % 2 = 0)) :
    arredD x = (n : ℚ) * (2 ^ max e (-1022) / 2 ^ 52) := by
  unfold arredD quantoD arredQ
  rw [expoente_unico x e h1 h2, arredInt_unico _ n h]

theorem DBL_OVF_pos : 0 < DBL_OVF := by
  unfold DBL_OVF; norm_num

theorem dois_zpow_mono {m n : ℤ} (h : m ≤ n) : (2 : ℚ) ^ m ≤ 2 ^ n :=
  zpow_le_zpow_right₀ (by norm_num) h

theorem quantoD_le (x : ℚ) (hx : x ≠ 0) (h : |x| < 2 ^ 1024) : quantoD x ≤ 2 ^ 971 := by
  have he : expoente x < 1024 := expoente_lt x hx 1024 (by
    have : (2 : ℚ) ^ (1024 : ℤ) = 2 ^ 1024 := by norm_num
    rw [this]; exact h)
  unfold quantoD
  have hm : max (expoente x) (-1022) ≤ 1023 := by
    rcases max_cases (expoente x) (-1022) with h | h <;> omega
  have := dois_zpow_mono hm
  have h3 : (2 : ℚ) ^ (1023 : ℤ) = 2 ^ 1023 := by norm_num
  rw [h3] at this
  rw [div_le_iff₀ (by positivity)]
  calc (2 : ℚ) ^ max (expoente x) (-1022) ≤ 2 ^ 1023 := this
    _ = 2 ^ 971 * 2 ^ 52 := by norm_num

/-- Narrowing to `double` overflows exactly from `DBL_OVF` on. -/
theorem arredD_estouro (x : ℚ) : (2 : ℚ) ^ 1024 ≤ arredD x ↔ DBL_OVF ≤ x := by
  have hpos := DBL_OVF_pos
  constructor
  · intro h
    by_contra hlt
    rw [not_le] at hlt
    rcases le_or_lt x 0 with h0 | h0
    · have := arredQ_mono (quantoD x) (quantoD_pos x) h0
      have h00 : arredQ (quantoD x) 0 = 0 := by simp [arredQ, arredInt]
      rw [h00] at this
      unfold arredD at h
      have : (2 : ℚ) ^ 1024 ≤ 0 := le_trans h this
      norm_num at this
    · have hx : x ≠ 0 := ne_of_gt h0
      have hx1024 : |x| < 2 ^ 1024 := by
        rw [abs_of_pos h0]
        unfold DBL_OVF at hlt
        have : (0 : ℚ) < 2 ^ 970 := by positivity
        linarith
      have hq := quantoD_le x hx hx1024
      have he := abs_le.mp (arredQ_erro (quantoD x) x (quantoD_pos x))
      unfold arredD at h
      unfold DBL_OVF at hlt
      have : (2 : ℚ) ^ 971 / 2 = 2 ^ 970 := by norm_num
      linarith [he.2]
  · intro h
    have h0 : 0 < x := lt_of_lt_of_le hpos h
    have hx : x ≠ 0 := ne_of_gt h0
    have h1023 : (2 : ℚ) ^ (1023 : ℤ) ≤ |x| := by
      rw [abs_of_pos h0]
      refine le_trans ?_ h
      unfold DBL_OVF
      norm_num
    have he := expoente_ge x hx 1023 h1023
    have hmax : max (expoente x) (-1022) = expoente x := max_eq_left (by omega)
    unfold arredD quantoD
    rw [hmax]
    rcases eq_or_lt_of_le he with he1 | he1
    · -- the top binade: the tie at `2^53 - 1/2` goes to the even `2^53`
      rw [← he1]
      have hq : (0 : ℚ) < 2 ^ (1023 : ℤ) / 2 ^ 52 := by positivity
      have ht : arredInt ((2 : ℚ) ^ 53 - 1 / 2) = 2 ^ 53 := by
        apply arredInt_unico
        right
        constructor
        · push_cast
          norm_num
        · norm_num
      have hle : (2 : ℚ) ^ 53 - 1 / 2 ≤ x / (2 ^ (1023 : ℤ) / 2 ^ 52) := by
        rw [le_div_iff₀ hq]
        refine le_trans (le_of_eq ?_) h
        unfold DBL_OVF
        norm_num
      have hm := arredInt_mono hle
      rw [ht] at hm
      have hm' : ((2 ^ 53 : ℤ) : ℚ) ≤ arredInt (x / (2 ^ (1023 : ℤ) / 2 ^ 52)) :=
        Int.cast_le.mpr hm
      unfold arredQ
      calc (2 : ℚ) ^ 1024 = ((2 ^ 53 : ℤ) : ℚ) * (2 ^ (1023 : ℤ) / 2 ^ 52) := by norm_num
        _ ≤ _ := mul_le_mul_of_nonneg_right hm' (le_of_lt hq)
    · have hq : (0 : ℚ) < 2 ^ expoente x / 2 ^ 52 := by positivity
      have hc := (expoente_cotas x hx).1
      rw [abs_of_pos h0] at hc
      have hcast : ((2 ^ 52 : ℤ) : ℚ) = 2 ^ 52 := by norm_num
      have hprod : (2 : ℚ) ^ 52 * (2 ^ expoente x / 2 ^ 52) = 2 ^ expoente x := by field_simp
      have hmul : ((2 ^ 52 : ℤ) : ℚ) * (2 ^ expoente x / 2 ^ 52) ≤ x := by
        rw [hcast, hprod]; exact hc
      have hm := arredQ_mono _ hq hmul
      rw [arredQ_multiplo _ hq] at hm
      refine le_trans ?_ hm
      rw [hcast, hprod]
      have h1024 : (1024 : ℤ) ≤ expoente x := by omega
      have := dois_zpow_mono h1024
      have h3 : (2 : ℚ) ^ (1024 : ℤ) = 2 ^ 1024 := by norm_num
      rw [h3] at this
      exact this

theorem arredD_estouro_neg (x : ℚ) : arredD x ≤ -(2 : ℚ) ^ 1024 ↔ x ≤ -DBL_OVF := by
  have h := arredD_estouro (-x)
  rw [arredD_neg] at h
  constructor
  · intro hx
    have := h.mp (by linarith)
    linarith
  · intro hx
    have := h.mpr (by linarith)
    linarith

/-- Error of the narrowing to `double`: half a unit in the last place, or half
the subnormal spacing. -/
theorem arredD_erro (x : ℚ) : |arredD x - x| ≤ |x| / 2 ^ 53 + 1 / 2 ^ 1075 := by
  by_cases hx : x = 0
  · subst hx; simp [arredD_zero]
  · have h := arredQ_erro (quantoD x) x (quantoD_pos x)
    have hc := (expoente_cotas x hx).1
    unfold arredD
    refine le_trans h ?_
    unfold quantoD
    rcases max_cases (expoente x) (-1022) with hm | hm
    · rw [hm.1]
      have : (2 : ℚ) ^ expoente x / 2 ^ 52 / 2 = 2 ^ expoente x / 2 ^ 53 := by ring
      rw [this]
      have h1 := div_le_div_of_nonneg_right hc (by positivity : (0 : ℚ) ≤ 2 ^ 53)
      have h2 : (0 : ℚ) ≤ 1 / 2 ^ 1075 := by positivity
      linarith
    · rw [hm.1]
      have : (2 : ℚ) ^ (-1022 : ℤ) / 2 ^ 52 / 2 = 1 / 2 ^ 1075 := by
        rw [zpow_neg]
        norm_num
      rw [this]
      have h2 : (0 : ℚ) ≤ |x| / 2 ^ 53 := by positivity
      linarith

theorem arredInt_abs_le (t : ℚ) (N : ℤ) (h : |t| ≤ N) : |arredInt t| ≤ N := by
  have h' := abs_le.mp h
  have h1 : arredInt t ≤ N := by
    have := arredInt_mono h'.2
    rwa [arredInt_inteiro] at this
  have h2 : -N ≤ arredInt t := by
    have hc : ((-N : ℤ) : ℚ) ≤ t := by push_cast; exact h'.1
    have := arredInt_mono hc
    rwa [arredInt_inteiro] at this
  exact abs_le.mpr ⟨h2, h1⟩

/-- Rounding to `long double` is idempotent. -/
theorem arredLD_idem (x : ℚ) : arredLD (arredLD x) = arredLD x := by
  by_cases hx : x = 0
  · subst hx; rw [arredLD_zero, arredLD_zero]
  · obtain ⟨-, hc2⟩ := expoente_cotas x hx
    have hq : (0 : ℚ) < 2 ^ expoente x / 2 ^ 63 := by positivity
    have hqk : (2 : ℚ) ^ expoente x / 2 ^ 63 = 2 ^ (expoente x - 63) := by
      rw [zpow_sub₀ (by norm_num : (2 : ℚ) ≠ 0)]
      norm_num
    have ht : |x / (2 ^ expoente x / 2 ^ 63)| ≤ ((2 ^ 64 : ℤ) : ℚ) := by
      rw [abs_div, abs_of_pos hq, div_le_iff₀ hq]
      have : ((2 ^ 64 : ℤ) : ℚ) * (2 ^ expoente x / 2 ^ 63) = 2 ^ (expoente x + 1) := by
        rw [zpow_add₀ (by norm_num : (2 : ℚ) ≠ 0)]
        push_cast
        field_simp
        ring
      rw [this]
      exact le_of_lt hc2
    have hn := arredInt_abs_le _ _ ht
    have hform : arredLD x =
        (arredInt (x / (2 ^ expoente x / 2 ^ 63)) : ℚ) * 2 ^ (expoente x - 63) := by
      unfold arredLD quantoLD arredQ
      rw [hqk]
    rw [hform]
    rcases lt_or_eq_of_le hn with hlt | heq
    · exact arredLD_repr _ _ hlt
    · -- the rounded significand reached `2^64`: the value is a power of two
      rcases abs_eq (by norm_num : (0 : ℤ) ≤ 2 ^ 64) |>.mp heq with h1 | h1
      · rw [h1]
        have : ((2 ^ 64 : ℤ) : ℚ) * 2 ^ (expoente x - 63) = ((1 : ℤ) : ℚ) * 2 ^ (expoente x + 1) := by
          rw [zpow_sub₀ (by norm_num : (2 : ℚ) ≠ 0), zpow_add₀ (by norm_num : (2 : ℚ) ≠ 0)]
          push_cast
          field_simp
          ring
        rw [this]
        exact arredLD_repr 1 _ (by norm_num)
      · rw [h1]
        have : ((-2 ^ 64 : ℤ) : ℚ) * 2 ^ (expoente x - 63)
            = ((-1 : ℤ) : ℚ) * 2 ^ (expoente x + 1) := by
          rw [zpow_sub₀ (by norm_num : (2 : ℚ) ≠ 0), zpow_add₀ (by norm_num : (2 : ℚ) ≠ 0)]
          push_cast
          field_simp
          ring
        rw [this]
        exact arredLD_repr (-1) _ (by norm_num)

/-- Rounding to `double` is idempotent. -/
theorem arredD_idem (x : ℚ) : arredD (arredD x) = arredD x := by
  by_cases hx : x = 0
  · subst hx; rw [arredD_zero, arredD_zero]
  · obtain ⟨-, hc2⟩ := expoente_cotas x hx
    have hform : ∃ E : ℤ, expoente x ≤ E ∧ -1022 ≤ E ∧
        arredD x = (arredInt (x / (2 ^ E / 2 ^ 52)) : ℚ) * (2 ^ E / 2 ^ 52) :=
      ⟨max (expoente x) (-1022), le_max_left _ _, le_max_right _ _, rfl⟩
    obtain ⟨E, hE, hE2, hform⟩ := hform
    have hq : (0 : ℚ) < 2 ^ E / 2 ^ 52 := by positivity
    have hqk : (2 : ℚ) ^ E / 2 ^ 52 = 2 ^ (E - 52) := by
      rw [zpow_sub₀ (by norm_num : (2 : ℚ) ≠ 0)]
      norm_num
    have ht : |x / (2 ^ E / 2 ^ 52)| ≤ ((2 ^ 53 : ℤ) : ℚ) := by
      rw [abs_div, abs_of_pos hq, div_le_iff₀ hq]
      have : ((2 ^ 53 : ℤ) : ℚ) * (2 ^ E / 2 ^ 52) = 2 ^ (E + 1) := by
        rw [zpow_add₀ (by norm_num : (2 : ℚ) ≠ 0)]
        push_cast
        field_simp
        ring
      rw [this]
      exact le_trans (le_of_lt hc2) (dois_zpow_mono (by omega))
    have hn := arredInt_abs_le _ _ ht
    generalize arredInt (x / (2 ^ E / 2 ^ 52)) = n at hform hn
    rw [hform, hqk]
    rcases lt_or_eq_of_le hn with hlt | heq
    · exact arredD_repr _ _ hlt (by omega)
    · rcases abs_eq (by norm_num : (0 : ℤ) ≤ 2 ^ 53) |>.mp heq with h1 | h1
      · rw [h1]
        have : ((2 ^ 53 : ℤ) : ℚ) * 2 ^ (E - 52) = ((1 : ℤ) : ℚ) * 2 ^ (E + 1) := by
          rw [zpow_sub₀ (by norm_num : (2 : ℚ) ≠ 0), zpow_add₀ (by norm_num : (2 : ℚ) ≠ 0)]
          push_cast
          field_simp
          ring
        rw [this]
        exact arredD_repr 1 _ (by norm_num) (by omega)
      · rw [h1]
        have : ((-2 ^ 53 : ℤ) : ℚ) * 2 ^ (E - 52) = ((-1 : ℤ) : ℚ) * 2 ^ (E + 1) := by
          rw [zpow_sub₀ (by norm_num : (2 : ℚ) ≠ 0), zpow_add₀ (by norm_num : (2 : ℚ) ≠ 0)]
          push_cast
          field_simp
          ring
        rw [this]
        exact arredD_repr (-1) _ (by norm_num) (by omega)

theorem arredLD_ge_pot (x : ℚ) (hx : 0 < x) : (2 : ℚ) ^ expoente x ≤ arredLD x := by
  have hc := (expoente_cotas x (ne_of_gt hx)).1
  rw [abs_of_pos hx] at hc
  have hq := quantoLD_pos x
  have hcast : ((2 ^ 63 : ℤ) : ℚ) = 2 ^ 63 := by norm_num
  have hprod : ((2 ^ 63 : ℤ) : ℚ) * quantoLD x = 2 ^ expoente x := by
    rw [hcast]; unfold quantoLD; field_simp
  have hm := arredQ_mono _ hq (show ((2 ^ 63 : ℤ) : ℚ) * quantoLD x ≤ x by rw [hprod]; exact hc)
  rw [arredQ_multiplo _ hq, hprod] at hm
  exact hm

theorem arredLD_le_pot (x : ℚ) (hx : 0 < x) : arredLD x ≤ (2 : ℚ) ^ (expoente x + 1) := by
  have hc := (expoente_cotas x (ne_of_gt hx)).2
  rw [abs_of_pos hx] at hc
  have hq := quantoLD_pos x
  have hcast : ((2 ^ 64 : ℤ) : ℚ) = 2 ^ 64 := by norm_num
  have hprod : ((2 ^ 64 : ℤ) : ℚ) * quantoLD x = 2 ^ (expoente x + 1) := by
    rw [hcast, zpow_add₀ (by norm_num : (2 : ℚ) ≠ 0)]; unfold quantoLD; field_simp; ring
  have hm := arredQ_mono _ hq (show x ≤ ((2 ^ 64 : ℤ) : ℚ) * quantoLD x by
    rw [hprod]; exact le_of_lt hc)
  rw [arredQ_multiplo _ hq, hprod] at hm
  exact hm

/-- Rounding to `long double` is monotone on positive values. -/
theorem arredLD_mono (x y : ℚ) (hx : 0 < x) (h : x ≤ y) : arredLD x ≤ arredLD y := by
  have hy : 0 < y := lt_of_lt_of_le hx h
  have hlog : expoente x ≤ expoente y := by
    unfold expoente
    rw [abs_of_pos hx, abs_of_pos hy]
    exact Int.log_mono_right hx h
  rcases eq_or_lt_of_le hlog with he | he
  · unfold arredLD quantoLD
    rw [he]
    exact arredQ_mono _ (by positivity) h
  · calc arredLD x ≤ (2 : ℚ) ^ (expoente x + 1) := arredLD_le_pot x hx
      _ ≤ 2 ^ expoente y := dois_zpow_mono (by omega)
      _ ≤ arredLD y := arredLD_ge_pot y hy


/-! ## Auxiliary facts -/

/-- The three outcomes of narrowing a finite value to `double`. -/
theorem toDouble_fin_casos (x : ℚ) :
    (DBL_OVF ≤ x ∧ toDouble (fin x) = pinf) ∨
    (x ≤ -DBL_OVF ∧ toDouble (fin x) = ninf) ∨
    (x < DBL_OVF ∧ -DBL_OVF < x ∧ toDouble (fin x) = fin (arredD x)) := by
  have hpos := DBL_OVF_pos
  unfold toDouble
  by_cases h1 : (2 : ℚ) ^ 1024 ≤ arredD x
  · left
    exact ⟨(arredD_estouro x).mp h1, by simp [h1]⟩
  · by_cases h2 : arredD x ≤ -(2 : ℚ) ^ 1024
    · right; left
      exact ⟨(arredD_estouro_neg x).mp h2, by simp [h1, h2]⟩
    · right; right
      refine ⟨?_, ?_, by simp [h1, h2]⟩
      · by_contra h
        exact h1 ((arredD_estouro x).mpr (not_lt.mp h))
      · by_contra h
        exact h2 ((arredD_estouro_neg x).mpr (not_lt.mp h))

/-- A finite value is classified non-finite exactly when its magnitude reaches
the overflow threshold of `double`. -/
theorem is_nan_or_inf_fin (x : ℚ) :
    is_nan_or_inf (fin x) = decide (DBL_OVF ≤ x ∨ x ≤ -DBL_OVF) := by
  have hpos := DBL_OVF_pos
  unfold is_nan_or_inf
  rcases toDouble_fin_casos x with ⟨h, e⟩ | ⟨h, e⟩ | ⟨h1, h2, e⟩
  · rw [e]; simp [Fp.isnan, Fp.isinf, h]
  · rw [e]; simp [Fp.isnan, Fp.isinf, h]
  · rw [e]; simp [Fp.isnan, Fp.isinf, not_le.mpr h1, not_le.mpr h2]

theorem is_nan_or_inf_pinf : is_nan_or_inf pinf = true := by
  simp [is_nan_or_inf, toDouble, Fp.isnan, Fp.isinf]

theorem is_nan_or_inf_ninf : is_nan_or_inf ninf = true := by
  simp [is_nan_or_inf, toDouble, Fp.isnan, Fp.isinf]

theorem is_nan_or_inf_nan : is_nan_or_inf nan = true := by
  simp [is_nan_or_inf, toDouble, Fp.isnan, Fp.isinf]

/-- A value classified finite is a rational strictly inside the `double` range. -/
theorem finito_eq_fin {a : Fp} (h : is_nan_or_inf a = false) :
    ∃ x : ℚ, a = fin x ∧ -DBL_OVF < x ∧ x < DBL_OVF := by
  cases a with
  | fin x =>
    rw [is_nan_or_inf_fin] at h
    simp only [decide_eq_false_iff_not, not_or, not_le] at h
    exact ⟨x, rfl, h.2, h.1⟩
  | pinf => simp [is_nan_or_inf_pinf] at h
  | ninf => simp [is_nan_or_inf_ninf] at h
  | nan => simp [is_nan_or_inf_nan] at h

theorem fmaxl_fin (x y : ℚ) : Fp.fmaxl (fin x) (fin y) = fin (max x y) := by
  unfold Fp.fmaxl
  by_cases h : x < y
  · simp [Fp.lt, h, max_eq_right (le_of_lt h)]
  · simp [Fp.lt, h, max_eq_left (not_lt.mp h)]

/-- The tolerance branch of `cmp_long_double` on two values classified finite:
the rounded difference against the rounded product of `1e-9L` and the scale. -/
theorem cmp_long_double_finitos (x y : ℚ)
    (hx : is_nan_or_inf (fin x) = false) (hy : is_nan_or_inf (fin y) = false) :
    cmp_long_double (fin x) (fin y) false =
      if |arredLD (x - y)| ≤ arredLD (LIT_1E_9L * max 1 (max |x| |y|)) then 0
      else if x < y then -1 else 1 := by
  simp [cmp_long_double, hx, hy, Fp.sub, Fp.fabsl, fmaxl_fin, Fp.mul, Fp.le, Fp.lt]

theorem escala_pos (x y : ℚ) : (0 : ℚ) < max 1 (max |x| |y|) :=
  lt_of_lt_of_le zero_lt_one (le_max_left _ _)

theorem LIT_1E_9L_nonneg : 0 ≤ LIT_1E_9L := by
  unfold LIT_1E_9L
  exact arredLD_nonneg _ (by norm_num)

theorem tolerancia_nonneg (x y : ℚ) : 0 ≤ arredLD (LIT_1E_9L * max 1 (max |x| |y|)) :=
  arredLD_nonneg _ (mul_nonneg LIT_1E_9L_nonneg (le_of_lt (escala_pos x y)))

theorem dif_troca (x y : ℚ) : |arredLD (y - x)| = |arredLD (x - y)| := by
  have : y - x = -(x - y) := by ring
  rw [this, arredLD_neg, abs_neg]

/-- Exact-integer mode on two values. -/
theorem cmp_long_double_inteiro (a b : Fp) :
    cmp_long_double a b true = if Fp.lt a b then -1 else if Fp.lt b a then 1 else 0 := by
  simp [cmp_long_double, Fp.gt]

theorem lt_asymm_fp (a b : Fp) (h : Fp.lt a b = true) : Fp.lt b a = false := by
  cases a <;> cases b <;> simp_all [Fp.lt]
  exact le_of_lt h

/-- The division in `densidade` is defined whenever it is reached. -/
theorem densidade_total (c : Carta) : ∃ v, densidade (some c) = some v := by
  unfold densidade
  by_cases h : Fp.le c.area (fin 0) = true
  · exact ⟨pinf, by simp [h]⟩
  · simp only [h]
    cases hA : c.area with
    | fin q =>
      rw [hA] at h
      have hq : q ≠ 0 := by
        intro h0
        apply h
        simp [Fp.le, h0]
      exact ⟨toDouble (fin (arredLD ((c.populacao : ℚ) / q))), by simp [ofNat, Fp.div, hq]⟩
    | pinf => exact ⟨toDouble (fin 0), by simp [ofNat, Fp.div]⟩
    | ninf => rw [hA] at h; simp [Fp.le] at h
    | nan => exact ⟨toDouble nan, by simp [ofNat, Fp.div]⟩

/-- The division in `pib_per_capita` is defined whenever it is reached. -/
theorem div_por_natural (g : Fp) (n : Nat) (hn : n ≠ 0) :
    ∃ v, Fp.div g (ofNat n) = some v := by
  have hq : (n : ℚ) ≠ 0 := by exact_mod_cast hn
  cases g with
  | fin x => exact ⟨fin (arredLD (x / n)), by simp [ofNat, Fp.div, hq]⟩
  | pinf => exact ⟨inf_sinal (decide ((0 : ℚ) < n)), by simp [ofNat, Fp.div, hq]⟩
  | ninf => exact ⟨inf_sinal (decide ((n : ℚ) < 0)), by simp [ofNat, Fp.div, hq]⟩
  | nan => exact ⟨nan, by simp [ofNat, Fp.div, hq]⟩

theorem pib_per_capita_total (c : Carta) : ∃ v, pib_per_capita (some c) = some v := by
  unfold pib_per_capita
  by_cases h : c.populacao = 0
  · exact ⟨fin 0, by simp [h]⟩
  · obtain ⟨v, hv⟩ := div_por_natural c.pib c.populacao h
    exact ⟨toDouble v, by simp [h, hv]⟩

/-- Reading an attribute value never fails. -/
theorem attr_value_ld_total (c : Carta) (a : Atributo) : ∃ v, attr_value_ld c a = some v := by
  unfold attr_value_ld
  split_ifs
  · exact ⟨_, rfl⟩
  · exact ⟨_, rfl⟩
  · exact ⟨_, rfl⟩
  · exact ⟨_, rfl⟩
  · exact densidade_total c
  · exact pib_per_capita_total c
  · exact ⟨_, rfl⟩

/-- Outside `1..6` the value is NaN and the catalog entry is the invalid one,
which is compared with tolerance. -/
theorem attr_fora_da_faixa (c : Carta) (a : Atributo) (h : ¬ (1 ≤ a ∧ a ≤ 6)) :
    attr_value_ld c a = some nan ∧ (get_attr_info a).inteiro = false := by
  constructor
  · unfold attr_value_ld
    simp only [ATR_POPULACAO, ATR_AREA, ATR_PIB, ATR_PONTOS_TURISTICOS, ATR_DENSIDADE,
      ATR_PIB_PER_CAPITA]
    split_ifs <;> first | rfl | (exfalso; apply h; unfold Atributo at *; omega)
  · unfold get_attr_info
    simp only [ATR_INVALIDO, ATR_PIB_PER_CAPITA]
    by_cases h0 : a < 0 ∨ a > 6
    · simp [h0, ATRIBUTOS]
    · have ha : a = 0 := by
        simp only [not_or, not_lt] at h0
        by_contra hne
        apply h
        unfold Atributo at *
        omega
      subst ha
      simp [ATRIBUTOS]

/-- The result of `cmp_long_double` is one of `-1`, `0`, `1`. -/
theorem cmp_long_double_faixa (a b : Fp) (integer : Bool) :
    cmp_long_double a b integer = -1 ∨ cmp_long_double a b integer = 0 ∨
      cmp_long_double a b integer = 1 := by
  unfold cmp_long_double
  simp only []
  split_ifs <;> simp

theorem toDouble_nonneg (x : ℚ) (hx : 0 ≤ x) : Fp.le (fin 0) (toDouble (fin x)) = true := by
  have hpos := DBL_OVF_pos
  rcases toDouble_fin_casos x with ⟨-, e⟩ | ⟨h, -⟩ | ⟨-, -, e⟩
  · rw [e]; simp [Fp.le]
  · exfalso; linarith
  · rw [e]; simp [Fp.le, arredD_nonneg x hx]

/-- Every attribute value of a well-formed card is ordered and not negative. -/
theorem attr_value_ld_nonneg (c : Carta) (hc : c.valida) (a : Atributo)
    (ha : 1 ≤ a ∧ a ≤ 6) (v : Fp) (hv : attr_value_ld c a = some v) :
    Fp.le (fin 0) v = true := by
  obtain ⟨hA, hP, -, -, -, -⟩ := hc
  simp only [aceita_real, Fp.ge] at hA hP
  have hcases : a = 1 ∨ a = 2 ∨ a = 3 ∨ a = 4 ∨ a = 5 ∨ a = 6 := by
    unfold Atributo at *; omega
  rcases hcases with h | h | h | h | h | h <;> subst h
  · simp [attr_value_ld, ofNat] at hv
    subst hv; simp [Fp.le]
  · simp [attr_value_ld] at hv
    subst hv; exact hA
  · simp [attr_value_ld] at hv
    subst hv; exact hP
  · simp [attr_value_ld, ofNat] at hv
    subst hv; simp [Fp.le]
  · simp only [attr_value_ld, ATR_POPULACAO, ATR_AREA, ATR_PIB, ATR_PONTOS_TURISTICOS,
      ATR_DENSIDADE, densidade] at hv
    norm_num at hv
    by_cases h : Fp.le c.area (fin 0) = true
    · simp [h] at hv
      subst hv; simp [Fp.le]
    · simp only [h] at hv
      cases hAr : c.area with
      | fin q =>
        rw [hAr] at h hA hv
        simp only [Fp.le, decide_eq_true_eq] at h hA
        have hq : q ≠ 0 := by intro h0; apply h; rw [h0]
        simp [ofNat, Fp.div, hq] at hv
        subst hv
        apply toDouble_nonneg
        apply arredLD_nonneg
        positivity
      | pinf =>
        rw [hAr] at hv
        simp [ofNat, Fp.div] at hv
        subst hv
        exact toDouble_nonneg 0 (le_refl 0)
      | ninf => rw [hAr] at hA; simp [Fp.le] at hA
      | nan => rw [hAr] at hA; simp [Fp.le] at hA
  · simp only [attr_value_ld, ATR_POPULACAO, ATR_AREA, ATR_PIB, ATR_PONTOS_TURISTICOS,
      ATR_DENSIDADE, ATR_PIB_PER_CAPITA, pib_per_capita] at hv
    norm_num at hv
    by_cases h : c.populacao = 0
    · simp [h] at hv
      subst hv; simp [Fp.le]
    · have hq : (c.populacao : ℚ) ≠ 0 := by exact_mod_cast h
      have hq0 : (0 : ℚ) < c.populacao := by
        have : 0 < c.populacao := Nat.pos_of_ne_zero h
        exact_mod_cast this
      simp only [h] at hv
      cases hPi : c.pib with
      | fin g =>
        rw [hPi] at hP hv
        simp only [Fp.le, decide_eq_true_eq] at hP
        simp [ofNat, Fp.div, hq] at hv
        subst hv
        apply toDouble_nonneg
        apply arredLD_nonneg
        positivity
      | pinf =>
        rw [hPi] at hv
        simp [ofNat, Fp.div, hq, Fp.inf_sinal, hq0, h] at hv
        subst hv
        simp [toDouble, Fp.le]
      | ninf => rw [hPi] at hP; simp [Fp.le] at hP
      | nan => rw [hPi] at hP; simp [Fp.le] at hP

/-- On ordered, non-negative operands a result `1` means that the first operand
is the larger one and a result `-1` that it is the smaller one, in both modes. -/
theorem cmp_long_double_ordem (a b : Fp) (integer : Bool)
    (ha : Fp.le (fin 0) a = true) (hb : Fp.le (fin 0) b = true) :
    (cmp_long_double a b integer = 1 → Fp.lt b a = true) ∧
      (cmp_long_double a b integer = -1 → Fp.lt a b = true) := by
  have hpos := DBL_OVF_pos
  cases integer with
  | true =>
    rw [cmp_long_double_inteiro]
    by_cases h1 : Fp.lt a b = true
    · simp [h1]
    · by_cases h2 : Fp.lt b a = true
      · simp [h1, h2]
      · simp [h1, h2]
  | false =>
    by_cases hfa : is_nan_or_inf a = true
    · by_cases hfb : is_nan_or_inf b = true
      · simp [cmp_long_double, hfa, hfb]
      · simp only [Bool.not_eq_true] at hfb
        obtain ⟨y, rfl, hy1, hy2⟩ := finito_eq_fin hfb
        have hc : cmp_long_double a (fin y) false = 1 := by
          simp [cmp_long_double, hfa, hfb]
        rw [hc]
        refine ⟨fun _ => ?_, fun h => by simp at h⟩
        cases a with
        | fin x =>
          rw [is_nan_or_inf_fin] at hfa
          simp only [decide_eq_true_eq] at hfa
          simp only [Fp.le, decide_eq_true_eq] at ha
          rcases hfa with h | h
          · simp only [Fp.lt, decide_eq_true_eq]; linarith
          · exfalso; linarith
        | pinf => simp [Fp.lt]
        | ninf => simp [Fp.le] at ha
        | nan => simp [Fp.le] at ha
    · simp only [Bool.not_eq_true] at hfa
      obtain ⟨x, rfl, hx1, hx2⟩ := finito_eq_fin hfa
      by_cases hfb : is_nan_or_inf b = true
      · have hc : cmp_long_double (fin x) b false = -1 := by
          simp [cmp_long_double, hfa, hfb]
        rw [hc]
        refine ⟨fun h => by simp at h, fun _ => ?_⟩
        cases b with
        | fin y =>
          rw [is_nan_or_inf_fin] at hfb
          simp only [decide_eq_true_eq] at hfb
          simp only [Fp.le, decide_eq_true_eq] at hb
          rcases hfb with h | h
          · simp only [Fp.lt, decide_eq_true_eq]; linarith
          · exfalso; linarith
        | pinf => simp [Fp.lt]
        | ninf => simp [Fp.le] at hb
        | nan => simp [Fp.le] at hb
      · simp only [Bool.not_eq_true] at hfb
        obtain ⟨y, rfl, hy1, hy2⟩ := finito_eq_fin hfb
        rw [cmp_long_double_finitos x y hfa hfb]
        by_cases hd : |arredLD (x - y)| ≤ arredLD (LIT_1E_9L * max 1 (max |x| |y|))
        · rw [if_pos hd]; simp
        · rw [if_neg hd]
          rcases lt_trichotomy x y with h | h | h
          · simp [h, Fp.lt]
          · exfalso; apply hd
            rw [h, sub_self, arredLD_zero, abs_zero]
            exact tolerancia_nonneg y y
          · simp [h, not_lt.mpr (le_of_lt h), Fp.lt]

/-- What `comparar_duplo` returns when the primary comparison is not equal. -/
theorem comparar_duplo_primario (c1 c2 : Carta) (prim sec : Atributo) (v1p v2p : Fp)
    (h1 : attr_value_ld c1 prim = some v1p) (h2 : attr_value_ld c2 prim = some v2p)
    (hne : cmp_long_double v1p v2p (get_attr_info prim).inteiro ≠ 0) :
    comparar_duplo c1 c2 prim sec =
      some ⟨if (get_attr_info prim).menorVence then
              (if cmp_long_double v1p v2p (get_attr_info prim).inteiro < 0 then 1 else 2)
            else (if cmp_long_double v1p v2p (get_attr_info prim).inteiro > 0 then 1 else 2),
            if (get_attr_info prim).menorVence then
              (if cmp_long_double v1p v2p (get_attr_info prim).inteiro < 0 then 1 else 2)
            else (if cmp_long_double v1p v2p (get_attr_info prim).inteiro > 0 then 1 else 2)⟩ := by
  unfold comparar_duplo
  simp only [h1, h2, Option.bind_eq_bind, Option.some_bind, if_neg hne]
  split_ifs <;> simp_all

/-- What `comparar_duplo` returns when the primary comparison is equal. -/
theorem comparar_duplo_secundario (c1 c2 : Carta) (prim sec : Atributo)
    (v1p v2p v1s v2s : Fp)
    (h1 : attr_value_ld c1 prim = some v1p) (h2 : attr_value_ld c2 prim = some v2p)
    (h3 : attr_value_ld c1 sec = some v1s) (h4 : attr_value_ld c2 sec = some v2s)
    (heq : cmp_long_double v1p v2p (get_attr_info prim).inteiro = 0) :
    comparar_duplo c1 c2 prim sec =
      some ⟨-1,
            if cmp_long_double v1s v2s (get_attr_info sec).inteiro = 0 then 0
            else if (get_attr_info sec).menorVence then
              (if cmp_long_double v1s v2s (get_attr_info sec).inteiro < 0 then 1 else 2)
            else (if cmp_long_double v1s v2s (get_attr_info sec).inteiro > 0 then 1 else 2)⟩ := by
  unfold comparar_duplo
  simp only [h1, h2, h3, h4, Option.bind_eq_bind, Option.some_bind, heq, if_true]
  rfl

/-- Exchanging the operands negates the result in exact-integer mode. -/
theorem cmp_inteiro_troca (a b : Fp) :
    cmp_long_double a b true = - cmp_long_double b a true := by
  rw [cmp_long_double_inteiro, cmp_long_double_inteiro]
  by_cases h1 : Fp.lt a b = true
  · have h2 := lt_asymm_fp a b h1
    simp [h1, h2]
  · by_cases h2 : Fp.lt b a = true
    · simp [h1, h2]
    · simp [h1, h2]

/-- Exchanging the operands negates the result in tolerance mode. -/
theorem cmp_tolerancia_troca (a b : Fp) :
    cmp_long_double a b false = - cmp_long_double b a false := by
  by_cases ha : is_nan_or_inf a = true
  · by_cases hb : is_nan_or_inf b = true
    · simp [cmp_long_double, ha, hb]
    · simp [cmp_long_double, ha, hb]
  · by_cases hb : is_nan_or_inf b = true
    · simp [cmp_long_double, ha, hb]
    · simp only [Bool.not_eq_true] at ha hb
      obtain ⟨x, rfl, -, -⟩ := finito_eq_fin ha
      obtain ⟨y, rfl, -, -⟩ := finito_eq_fin hb
      rw [cmp_long_double_finitos x y ha hb, cmp_long_double_finitos y x hb ha]
      rw [dif_troca x y, max_comm |y| |x|]
      by_cases hd : |arredLD (x - y)| ≤ arredLD (LIT_1E_9L * max 1 (max |x| |y|))
      · rw [if_pos hd, if_pos hd]; rfl
      · rw [if_neg hd, if_neg hd]
        rcases lt_trichotomy x y with h | h | h
        · simp [h, not_lt.mpr (le_of_lt h)]
        · exfalso; apply hd
          rw [h, sub_self, arredLD_zero, abs_zero]
          exact tolerancia_nonneg y y
        · simp [h, not_lt.mpr (le_of_lt h)]

/-- The catalog entries in range, one by one. -/
theorem get_attr_info_casos (a : Atributo) :
    (a = 1 ∧ get_attr_info a = ⟨ATR_POPULACAO, "População", "hab", false, true⟩) ∨
    (a = 2 ∧ get_attr_info a = ⟨ATR_AREA, "Área", "km^2", false, false⟩) ∨
    (a = 3 ∧ get_attr_info a = ⟨ATR_PIB, "PIB", "", false, false⟩) ∨
    (a = 4 ∧ get_attr_info a =
      ⟨ATR_PONTOS_TURISTICOS, "Pontos turísticos", "pontos", false, true⟩) ∨
    (a = 5 ∧ get_attr_info a = ⟨ATR_DENSIDADE, "Densidade", "hab/km^2", true, false⟩) ∨
    (a = 6 ∧ get_attr_info a = ⟨ATR_PIB_PER_CAPITA, "PIB per capita", "", false, false⟩) ∨
    (¬ (1 ≤ a ∧ a ≤ 6) ∧ get_attr_info a = ATRIBUTO_INVALIDO) := by
  by_cases h : 1 ≤ a ∧ a ≤ 6
  · have hcases : a = 1 ∨ a = 2 ∨ a = 3 ∨ a = 4 ∨ a = 5 ∨ a = 6 := by
      unfold Atributo at *; omega
    rcases hcases with h | h | h | h | h | h <;> subst h <;> simp <;> decide
  · right; right; right; right; right; right
    refine ⟨h, ?_⟩
    unfold get_attr_info
    simp only [ATR_INVALIDO, ATR_PIB_PER_CAPITA]
    by_cases h0 : a < 0 ∨ a > 6
    · simp [h0, ATRIBUTOS, ATRIBUTO_INVALIDO]
    · have ha : a = 0 := by
        simp only [not_or, not_lt] at h0
        by_contra hne
        apply h
        unfold Atributo at *
        omega
      subst ha
      simp [ATRIBUTOS, ATRIBUTO_INVALIDO]

/-- Density is the one attribute for which the lower value wins. -/
theorem menorVence_sse_densidade (a : Atributo) :
    (get_attr_info a).menorVence = true ↔ a = ATR_DENSIDADE := by
  rcases get_attr_info_casos a with h | h | h | h | h | h | h <;>
    obtain ⟨h1, h2⟩ := h <;> rw [h2]
  · subst h1; simp
  · subst h1; simp
  · subst h1; simp
  · subst h1; simp
  · subst h1; simp
  · subst h1; simp
  · simp only [ATRIBUTO_INVALIDO, ATR_DENSIDADE]
    constructor
    · intro hh; simp at hh
    · intro hh; exfalso; apply h1; unfold Atributo at *; omega

/-- Exact-integer comparison is the mode of Population and of the landmark count,
and of no other attribute. -/
theorem inteiro_sse (a : Atributo) :
    (get_attr_info a).inteiro = true ↔ (a = ATR_POPULACAO ∨ a = ATR_PONTOS_TURISTICOS) := by
  rcases get_attr_info_casos a with h | h | h | h | h | h | h <;>
    obtain ⟨h1, h2⟩ := h <;> rw [h2]
  · subst h1; simp
  · subst h1; simp
  · subst h1; simp
  · subst h1; simp
  · subst h1; simp
  · subst h1; simp
  · simp only [ATRIBUTO_INVALIDO, ATR_POPULACAO, ATR_PONTOS_TURISTICOS]
    constructor
    · intro hh; simp at hh
    · intro hh; exfalso; apply h1; unfold Atributo at *; omega

/-- Narrowing to `double` is idempotent: its results are `double`s. -/
theorem toDouble_idem (v : Fp) : toDouble (toDouble v) = toDouble v := by
  cases v with
  | fin x =>
    rcases toDouble_fin_casos x with ⟨-, e⟩ | ⟨-, e⟩ | ⟨h1, h2, e⟩
    · rw [e]; rfl
    · rw [e]; rfl
    · rw [e]
      have n1 : ¬ (2 : ℚ) ^ 1024 ≤ arredD x := fun h => absurd ((arredD_estouro x).mp h) (not_le.mpr h1)
      have n2 : ¬ arredD x ≤ -(2 : ℚ) ^ 1024 :=
        fun h => absurd ((arredD_estouro_neg x).mp h) (not_le.mpr h2)
      simp [toDouble, arredD_idem, n1, n2]
  | pinf => rfl
  | ninf => rfl
  | nan => rfl

/-- A `double` in range is left alone by the narrowing cast. -/
theorem toDouble_fin (x : ℚ) (hd : arredD x = x) (h0 : 0 ≤ x) (h1 : x < DBL_OVF) :
    toDouble (fin x) = fin x := by
  have hpos := DBL_OVF_pos
  rcases toDouble_fin_casos x with ⟨h, -⟩ | ⟨h, -⟩ | ⟨-, -, e⟩
  · exfalso; linarith
  · exfalso; linarith
  · rw [e, hd]

/-- Integers below `2^53` are `double`s. -/
theorem arredD_int (n : ℤ) (hn : |n| < 2 ^ 53) : arredD (n : ℚ) = n := by
  have h := arredD_repr n 0 hn (by norm_num)
  simpa using h

/-- Integers below `2^64` are `long double`s. -/
theorem arredLD_int (n : ℤ) (hn : |n| < 2 ^ 64) : arredLD (n : ℚ) = n := by
  have h := arredLD_repr n 0 hn
  simpa using h

/-- The scenario cards are well-formed as soon as their fields are `double`s in
range. -/
theorem carta_valida (p k : Nat) (a g : ℚ) (ha0 : 0 ≤ a) (ha1 : a < DBL_OVF)
    (had : arredD a = a) (hg0 : 0 ≤ g) (hg1 : g < DBL_OVF) (hgd : arredD g = g)
    (hp : p < 2 ^ 64) (hk : k < 2 ^ 32) :
    (carta p a g k).valida := by
  refine ⟨?_, ?_, toDouble_fin a had ha0 ha1, toDouble_fin g hgd hg0 hg1, hp, hk⟩
  · simp [carta, aceita_real, Fp.ge, Fp.le, ha0]
  · simp [carta, aceita_real, Fp.ge, Fp.le, hg0]

/-- The rounded magnitude of a difference is within one part in `2^64` of the
exact one. -/
theorem dif_cotas (z : ℚ) :
    |z| * (1 - 1 / 2 ^ 64) ≤ |arredLD z| ∧ |arredLD z| ≤ |z| * (1 + 1 / 2 ^ 64) := by
  have h := arredLD_erro z
  have h1 : |arredLD z| ≤ |z| + |arredLD z - z| := by
    have := abs_add (arredLD z - z) z
    simpa [add_comm] using this
  have h2 : |z| ≤ |arredLD z| + |arredLD z - z| := by
    have := abs_sub_abs_le_abs_sub z (arredLD z)
    rw [abs_sub_comm z (arredLD z)] at this
    linarith
  constructor
  · have : |z| * (1 - 1 / 2 ^ 64) = |z| - |z| / 2 ^ 64 := by ring
    rw [this]; linarith
  · have : |z| * (1 + 1 / 2 ^ 64) = |z| + |z| / 2 ^ 64 := by ring
    rw [this]; linarith

/-- The rounded tolerance `1e-9L * scale` is within two roundings of the exact
`1e-9 * scale`. -/
theorem tol_cotas (s : ℚ) (hs : 0 ≤ s) :
    1 / 1000000000 * s * ((1 - 1 / 2 ^ 64) * (1 - 1 / 2 ^ 64)) ≤ arredLD (LIT_1E_9L * s) ∧
    arredLD (LIT_1E_9L * s) ≤ 1 / 1000000000 * s * ((1 + 1 / 2 ^ 64) * (1 + 1 / 2 ^ 64)) := by
  have hL := dif_cotas (1 / 1000000000)
  have hLn := LIT_1E_9L_nonneg
  rw [show arredLD (1 / 1000000000) = LIT_1E_9L from rfl, abs_of_nonneg hLn,
    abs_of_nonneg (by norm_num : (0 : ℚ) ≤ 1 / 1000000000)] at hL
  have hE := dif_cotas (LIT_1E_9L * s)
  have hp : 0 ≤ LIT_1E_9L * s := mul_nonneg hLn hs
  rw [abs_of_nonneg hp, abs_of_nonneg (arredLD_nonneg _ hp)] at hE
  have hu1 : (0 : ℚ) ≤ 1 - 1 / 2 ^ 64 := by norm_num
  have hu2 : (0 : ℚ) ≤ 1 + 1 / 2 ^ 64 := by norm_num
  constructor
  · calc 1 / 1000000000 * s * ((1 - 1 / 2 ^ 64) * (1 - 1 / 2 ^ 64))
        = (1 / 1000000000 * (1 - 1 / 2 ^ 64)) * s * (1 - 1 / 2 ^ 64) := by ring
      _ ≤ LIT_1E_9L * s * (1 - 1 / 2 ^ 64) :=
        mul_le_mul_of_nonneg_right (mul_le_mul_of_nonneg_right hL.1 hs) hu1
      _ ≤ arredLD (LIT_1E_9L * s) := hE.1
  · calc arredLD (LIT_1E_9L * s) ≤ LIT_1E_9L * s * (1 + 1 / 2 ^ 64) := hE.2
      _ ≤ (1 / 1000000000 * (1 + 1 / 2 ^ 64)) * s * (1 + 1 / 2 ^ 64) :=
        mul_le_mul_of_nonneg_right (mul_le_mul_of_nonneg_right hL.2 hs) hu2
      _ = 1 / 1000000000 * s * ((1 + 1 / 2 ^ 64) * (1 + 1 / 2 ^ 64)) := by ring

/-- Two values classified finite whose difference is below the tolerance by a
margin of one part in `2^62` compare equal. -/
theorem cmp_perto (x y : ℚ)
    (hx : is_nan_or_inf (fin x) = false) (hy : is_nan_or_inf (fin y) = false)
    (h : |x - y| ≤ 1 / 1000000000 * max 1 (max |x| |y|) * (1 - 1 / 2 ^ 62)) :
    cmp_long_double (fin x) (fin y) false = 0 := by
  rw [cmp_long_double_finitos x y hx hy, if_pos]
  have hs := le_of_lt (escala_pos x y)
  have hd := (dif_cotas (x - y)).2
  have ht := (tol_cotas _ hs).1
  have hcs : (0 : ℚ) ≤ 1 / 1000000000 * max 1 (max |x| |y|) := by positivity
  have hk : (1 - 1 / 2 ^ 62) * (1 + 1 / 2 ^ 64) ≤
      (1 - 1 / 2 ^ 64) * (1 - 1 / 2 ^ 64 : ℚ) := by norm_num
  calc |arredLD (x - y)| ≤ |x - y| * (1 + 1 / 2 ^ 64) := hd
    _ ≤ 1 / 1000000000 * max 1 (max |x| |y|) * (1 - 1 / 2 ^ 62) * (1 + 1 / 2 ^ 64) :=
      mul_le_mul_of_nonneg_right h (by norm_num)
    _ = 1 / 1000000000 * max 1 (max |x| |y|) * ((1 - 1 / 2 ^ 62) * (1 + 1 / 2 ^ 64)) := by ring
    _ ≤ 1 / 1000000000 * max 1 (max |x| |y|) * ((1 - 1 / 2 ^ 64) * (1 - 1 / 2 ^ 64)) :=
      mul_le_mul_of_nonneg_left hk hcs
    _ ≤ _ := ht

/-- Two values classified finite whose difference exceeds the tolerance by a
margin of one part in `2^62` are told apart. -/
theorem cmp_longe (x y : ℚ)
    (hx : is_nan_or_inf (fin x) = false) (hy : is_nan_or_inf (fin y) = false)
    (h : 1 / 1000000000 * max 1 (max |x| |y|) * (1 + 1 / 2 ^ 62) < |x - y|) :
    cmp_long_double (fin x) (fin y) false = if x < y then -1 else 1 := by
  rw [cmp_long_double_finitos x y hx hy, if_neg]
  rw [not_le]
  have hs := le_of_lt (escala_pos x y)
  have hd := (dif_cotas (x - y)).1
  have ht := (tol_cotas _ hs).2
  have hcs : (0 : ℚ) ≤ 1 / 1000000000 * max 1 (max |x| |y|) := by positivity
  have hk : (1 + 1 / 2 ^ 64) * (1 + 1 / 2 ^ 64 : ℚ) ≤
      (1 + 1 / 2 ^ 62) * (1 - 1 / 2 ^ 64) := by norm_num
  calc arredLD (LIT_1E_9L * max 1 (max |x| |y|))
      ≤ 1 / 1000000000 * max 1 (max |x| |y|) * ((1 + 1 / 2 ^ 64) * (1 + 1 / 2 ^ 64)) := ht
    _ ≤ 1 / 1000000000 * max 1 (max |x| |y|) * ((1 + 1 / 2 ^ 62) * (1 - 1 / 2 ^ 64)) :=
      mul_le_mul_of_nonneg_left hk hcs
    _ = 1 / 1000000000 * max 1 (max |x| |y|) * (1 + 1 / 2 ^ 62) * (1 - 1 / 2 ^ 64) := by ring
    _ < |x - y| * (1 - 1 / 2 ^ 64) := mul_lt_mul_of_pos_right h (by norm_num)
    _ ≤ |arredLD (x - y)| := hd

theorem classificado_finito (x : ℚ) (h1 : -DBL_OVF < x) (h2 : x < DBL_OVF) :
    is_nan_or_inf (fin x) = false := by
  rw [is_nan_or_inf_fin]
  simp [not_le.mpr h1, not_le.mpr h2]

/-- The density of a card whose quotient is itself a `double`. -/
theorem densidade_exata (c : Carta) (q r : ℚ) (hA : c.area = fin q) (hq : 0 < q)
    (hr : (c.populacao : ℚ) / q = r) (h1 : arredLD r = r) (h2 : arredD r = r)
    (h3 : r < DBL_OVF) : densidade (some c) = some (fin r) := by
  have hne : q ≠ 0 := ne_of_gt hq
  have h0 : 0 ≤ r := by rw [← hr]; positivity
  simp [densidade, hA, Fp.le, not_le.mpr hq, ofNat, Fp.div, hne, hr, h1, toDouble_fin r h2 h0 h3]

theorem cem_LD : arredLD 100 = 100 := by
  simpa using arredLD_int 100 (by norm_num)

theorem cem_D : arredD 100 = 100 := by
  simpa using arredD_int 100 (by norm_num)

theorem duzentos_LD : arredLD 200 = 200 := by
  simpa using arredLD_int 200 (by norm_num)

theorem duzentos_D : arredD 200 = 200 := by
  simpa using arredD_int 200 (by norm_num)

theorem dez_D : arredD 10 = 10 := by
  simpa using arredD_int 10 (by norm_num)

theorem zero_D : arredD 0 = 0 := arredD_zero

theorem pequeno_lt_DBL_OVF (x : ℚ) (h : x < 2 ^ 64) : x < DBL_OVF := by
  unfold DBL_OVF
  have : (2 : ℚ) ^ 64 < 2 ^ 1024 - 2 ^ 970 := by norm_num
  linarith

theorem DBL_MAX_lt_OVF : DBL_MAX < DBL_OVF := by
  unfold DBL_MAX DBL_OVF; norm_num

theorem DBL_MAX_pos : 0 < DBL_MAX := by
  unfold DBL_MAX; norm_num

/-- `DBL_MAX` is a `long double`. -/
theorem arredLD_DBL_MAX : arredLD DBL_MAX = DBL_MAX := by
  have h := arredLD_repr (2 ^ 53 - 1) 971 (by norm_num)
  have e : (((2 ^ 53 - 1 : ℤ) : ℚ)) * 2 ^ (971 : ℤ) = DBL_MAX := by
    unfold DBL_MAX
    rw [show (971 : ℤ) = ((971 : ℕ) : ℤ) from rfl, zpow_natCast]
    norm_num
  rw [e] at h
  exact h

/-- The overflow threshold is a `long double`. -/
theorem arredLD_DBL_OVF : arredLD DBL_OVF = DBL_OVF := by
  have h := arredLD_repr (2 ^ 54 - 1) 970 (by norm_num)
  have e : (((2 ^ 54 - 1 : ℤ) : ℚ)) * 2 ^ (970 : ℤ) = DBL_OVF := by
    unfold DBL_OVF
    rw [show (970 : ℤ) = ((970 : ℕ) : ℤ) from rfl, zpow_natCast]
    norm_num
  rw [e] at h
  exact h

theorem arredLD_le_DBL_MAX (x : ℚ) (h0 : 0 ≤ x) (h : x ≤ DBL_MAX) : arredLD x ≤ DBL_MAX := by
  rcases eq_or_lt_of_le h0 with h1 | h1
  · rw [← h1, arredLD_zero]; exact le_of_lt DBL_MAX_pos
  · have := arredLD_mono x DBL_MAX h1 h
    rwa [arredLD_DBL_MAX] at this

theorem arredLD_ge_DBL_OVF (x : ℚ) (h : DBL_OVF ≤ x) : DBL_OVF ≤ arredLD x := by
  have := arredLD_mono DBL_OVF x DBL_OVF_pos h
  rwa [arredLD_DBL_OVF] at this

/-- Error of the two roundings of a quotient: to `long double`, then to
`double`. -/
theorem dupla_erro (x : ℚ) : |arredD (arredLD x) - x| ≤ |x| / 2 ^ 52 + 1 / 2 ^ 1075 := by
  have h1 := arredLD_erro x
  have h2 := arredD_erro (arredLD x)
  have h3 := (dif_cotas x).2
  have hx : 0 ≤ |x| := abs_nonneg x
  have htri : |arredD (arredLD x) - x| ≤ |arredD (arredLD x) - arredLD x| + |arredLD x - x| := by
    have := abs_add (arredD (arredLD x) - arredLD x) (arredLD x - x)
    simpa using this
  have hb : |arredLD x| / 2 ^ 53 ≤ |x| * (1 + 1 / 2 ^ 64) / 2 ^ 53 :=
    div_le_div_of_nonneg_right h3 (by positivity)
  have hk : |x| * (1 + 1 / 2 ^ 64) / 2 ^ 53 + |x| / 2 ^ 64 ≤ |x| / 2 ^ 52 := by
    have : |x| * (1 + 1 / 2 ^ 64) / 2 ^ 53 + |x| / 2 ^ 64
        = |x| * ((1 + 1 / 2 ^ 64) / 2 ^ 53 + 1 / 2 ^ 64) := by ring
    rw [this, div_eq_mul_one_div |x| (2 ^ 52)]
    exact mul_le_mul_of_nonneg_left (by norm_num) hx
  linarith

/-- The density overflows to infinity as soon as the exact quotient reaches the
overflow threshold. -/
theorem densidade_estouro (c : Carta) (q : ℚ) (hA : c.area = fin q) (hq : 0 < q)
    (h : DBL_OVF ≤ (c.populacao : ℚ) / q) : densidade (some c) = some pinf := by
  have hne : q ≠ 0 := ne_of_gt hq
  have hov := arredLD_ge_DBL_OVF _ h
  rcases toDouble_fin_casos (arredLD ((c.populacao : ℚ) / q)) with ⟨-, e⟩ | ⟨h2, -⟩ | ⟨h2, -, -⟩
  · simp [densidade, hA, Fp.le, not_le.mpr hq, ofNat, Fp.div, hne, e]
  · have := DBL_OVF_pos
    exfalso; linarith
  · exfalso; linarith

/-- What `densidade` returns is a `double`. -/
theorem densidade_double (c : Carta) (d : Fp) (h : densidade (some c) = some d) :
    toDouble d = d := by
  unfold densidade at h
  simp only [] at h
  split_ifs at h
  · cases h; rfl
  · cases hdiv : Fp.div (ofNat c.populacao) c.area with
    | none => rw [hdiv] at h; simp at h
    | some w =>
      rw [hdiv] at h
      simp only [Option.map_some', Option.some.injEq] at h
      rw [← h]
      exact toDouble_idem w

/-- On a `double`, `is_nan_or_inf` tells exactly whether the value is NaN or an
infinity. -/
theorem is_nan_or_inf_double (a : Fp) (h : toDouble a = a) :
    is_nan_or_inf a = (Fp.isnan a || Fp.isinf a) := by
  unfold is_nan_or_inf
  rw [h]

theorem enorme_nao_finito : is_nan_or_inf (fin (2 ^ 1100)) = true := by
  rw [is_nan_or_inf_fin]
  simp only [decide_eq_true_eq]
  left
  unfold DBL_OVF
  norm_num

theorem double_fin (x : ℚ) (h : toDouble (fin x) = fin x) :
    arredD x = x ∧ -DBL_OVF < x ∧ x < DBL_OVF := by
  rcases toDouble_fin_casos x with ⟨-, e⟩ | ⟨-, e⟩ | ⟨h1, h2, e⟩
  · rw [e] at h; cases h
  · rw [e] at h; cases h
  · rw [e] at h
    injection h with h
    exact ⟨h, h2, h1⟩

theorem arredLD_abs (z : ℚ) : |arredLD z| = arredLD |z| := by
  rcases le_total 0 z with h | h
  · rw [abs_of_nonneg h, abs_of_nonneg (arredLD_nonneg z h)]
  · have hn : 0 ≤ -z := by linarith
    have h1 := arredLD_nonneg (-z) hn
    rw [arredLD_neg] at h1
    rw [abs_of_nonpos h, arredLD_neg, abs_of_nonpos (by linarith)]

/-- A `double` is an integer multiple of every power of two not above its own
spacing. -/
theorem double_multiplo (x : ℚ) (hd : arredD x = x) (k : ℤ)
    (hk : k ≤ max (expoente x) (-1022) - 52) : ∃ X : ℤ, x = (X : ℚ) * 2 ^ k := by
  obtain ⟨m, hm⟩ := zpow_nonneg_inteiro (max (expoente x) (-1022) - 52 - k) (by omega)
  refine ⟨arredInt (x / quantoD x) * m, ?_⟩
  have hq : quantoD x = (m : ℚ) * 2 ^ k := by
    unfold quantoD
    rw [← hm, zpow_sub₀ (by norm_num : (2 : ℚ) ≠ 0), zpow_sub₀ (by norm_num : (2 : ℚ) ≠ 0)]
    have : (2 : ℚ) ^ (52 : ℤ) = 2 ^ 52 := by norm_num
    rw [this]
    field_simp
    ring
  have hx : x = (arredInt (x / quantoD x) : ℚ) * quantoD x := by
    nth_rewrite 1 [← hd]
    rfl
  nth_rewrite 1 [hx]
  rw [hq]
  push_cast
  ring

/-- The heart of the tolerance test on two `double`s of which the larger exceeds
1 in magnitude: a difference below `1e-9 * |x|` is an exact `long double` and
does not exceed the rounded tolerance. -/
theorem tol_doubles_grandes (x y : ℚ) (hdx : arredD x = x) (hdy : arredD y = y)
    (hx1 : 1 < |x|) (hd : |x - y| < 1 / 1000000000 * |x|) :
    |arredLD (x - y)| ≤ arredLD (LIT_1E_9L * |x|) := by
  have hx0 : x ≠ 0 := by
    intro h; rw [h, abs_zero] at hx1; linarith
  have hxpos : 0 < |x| := by linarith
  obtain ⟨hc1, hc2⟩ := expoente_cotas x hx0
  have he0 : 0 ≤ expoente x := expoente_ge x hx0 0 (by simpa using le_of_lt hx1)
  -- `y` is at least half of `x` in magnitude
  have hy_low : |x| / 2 < |y| := by
    have h1 : |x| - |y| ≤ |x - y| := abs_sub_abs_le_abs_sub x y
    linarith
  have hy0 : y ≠ 0 := by
    intro h; rw [h, abs_zero] at hy_low; linarith
  have hey : expoente x - 1 ≤ expoente y := by
    apply expoente_ge y hy0
    have : (2 : ℚ) ^ (expoente x - 1) = 2 ^ expoente x / 2 := by
      rw [zpow_sub₀ (by norm_num : (2 : ℚ) ≠ 0)]; norm_num
    rw [this]
    linarith
  -- both are multiples of `2^(e-53)`
  obtain ⟨X, hX⟩ := double_multiplo x hdx (expoente x - 53) (by
    rcases max_cases (expoente x) (-1022) with h | h <;> omega)
  obtain ⟨Y, hY⟩ := double_multiplo y hdy (expoente x - 53) (by
    rcases max_cases (expoente y) (-1022) with h | h <;> omega)
  obtain ⟨W, hW⟩ : ∃ W : ℤ, W = X - Y := ⟨_, rfl⟩
  have hdif : x - y = (W : ℚ) * 2 ^ (expoente x - 53) := by
    calc x - y = (X : ℚ) * 2 ^ (expoente x - 53) - (Y : ℚ) * 2 ^ (expoente x - 53) := by
          rw [← hX, ← hY]
      _ = (W : ℚ) * 2 ^ (expoente x - 53) := by rw [hW]; push_cast; ring
  have hpow : (2 : ℚ) ^ (expoente x + 1) = 2 ^ 54 * 2 ^ (expoente x - 53) := by
    rw [zpow_add₀ (by norm_num : (2 : ℚ) ≠ 0), zpow_sub₀ (by norm_num : (2 : ℚ) ≠ 0)]
    have : (2 : ℚ) ^ (53 : ℤ) = 2 ^ 53 := by norm_num
    rw [this]
    field_simp
    ring
  rw [hpow] at hc2
  -- the difference is a `long double` once its significand is bounded
  have hrep : |W| < 2 ^ 64 → arredLD (x - y) = x - y := by
    intro h
    rw [hdif]
    exact arredLD_repr W _ h
  obtain ⟨g, hgdef⟩ : ∃ g : ℚ, g = 2 ^ (expoente x - 53) := ⟨_, rfl⟩
  rw [← hgdef] at hX hY hdif hc2
  have hg : (0 : ℚ) < g := by rw [hgdef]; positivity
  clear hgdef hpow hey hc1 he0
  have habsx : |x| = |(X : ℚ)| * g := by
    rw [show |x| = |(X : ℚ) * g| from congrArg _ hX, abs_mul, abs_of_pos hg]
  have habsd : |x - y| = |(W : ℚ)| * g := by
    rw [hdif, abs_mul, abs_of_pos hg]
  -- the significand of `x` is below `2^54`
  have hA : |(X : ℚ)| < 2 ^ 54 := by
    have : |(X : ℚ)| * g < 2 ^ 54 * g := by
      rw [← habsx]; exact hc2
    exact lt_of_mul_lt_mul_right this (le_of_lt hg)
  have hB : |(W : ℚ)| < |(X : ℚ)| := by
    have h1 : |(W : ℚ)| * g < |(X : ℚ)| * g := by
      rw [← habsd, ← habsx]
      have : 1 / 1000000000 * |x| ≤ |x| := by linarith
      linarith
    exact lt_of_mul_lt_mul_right h1 (le_of_lt hg)
  have hW64 : |W| < 2 ^ 64 := by
    have : (2 : ℚ) ^ 54 < 2 ^ 64 := by norm_num
    have h2 : ((|W| : ℤ) : ℚ) < ((2 ^ 64 : ℤ) : ℚ) := by
      rw [Int.cast_abs]; push_cast; linarith
    exact_mod_cast h2
  rw [hrep hW64]
  by_contra hcon
  rw [not_le] at hcon
  have ht := (tol_cotas |x| (le_of_lt hxpos)).1
  -- in units of `g`
  have h1 : 1000000000 * |(W : ℚ)| < |(X : ℚ)| := by
    have h3 : |(W : ℚ)| * g < (1 / 1000000000 * |(X : ℚ)|) * g := by
      rw [mul_assoc, ← habsd, ← habsx]; exact hd
    have := lt_of_mul_lt_mul_right h3 (le_of_lt hg)
    linarith
  have h2 : |(X : ℚ)| * ((1 - 1 / 2 ^ 64) * (1 - 1 / 2 ^ 64)) < 1000000000 * |(W : ℚ)| := by
    have hlt : 1 / 1000000000 * |x| * ((1 - 1 / 2 ^ 64) * (1 - 1 / 2 ^ 64)) < |x - y| :=
      lt_of_le_of_lt ht hcon
    rw [habsd, habsx] at hlt
    have h3 : (1 / 1000000000 * |(X : ℚ)| * ((1 - 1 / 2 ^ 64) * (1 - 1 / 2 ^ 64))) * g
        < |(W : ℚ)| * g := by
      have e : 1 / 1000000000 * (|(X : ℚ)| * g) * ((1 - 1 / 2 ^ 64) * (1 - 1 / 2 ^ 64))
          = (1 / 1000000000 * |(X : ℚ)| * ((1 - 1 / 2 ^ 64) * (1 - 1 / 2 ^ 64))) * g := by ring
      rw [← e]; exact hlt
    have := lt_of_mul_lt_mul_right h3 (le_of_lt hg)
    linarith
  -- an integer strictly between 0 and 1
  have hZ1 : (0 : ℚ) < ((|X| - 1000000000 * |W| : ℤ) : ℚ) := by
    push_cast [Int.cast_abs]
    linarith
  have hZ2 : ((|X| - 1000000000 * |W| : ℤ) : ℚ) < 1 := by
    push_cast [Int.cast_abs]
    have hk : |(X : ℚ)| * (1 - (1 - 1 / 2 ^ 64) * (1 - 1 / 2 ^ 64)) < 1 := by
      have hf : (0 : ℚ) ≤ 1 - (1 - 1 / 2 ^ 64) * (1 - 1 / 2 ^ 64) := by norm_num
      calc |(X : ℚ)| * (1 - (1 - 1 / 2 ^ 64) * (1 - 1 / 2 ^ 64))
          ≤ 2 ^ 54 * (1 - (1 - 1 / 2 ^ 64) * (1 - 1 / 2 ^ 64)) :=
            mul_le_mul_of_nonneg_right (le_of_lt hA) hf
        _ < 1 := by norm_num
    linarith
  have z1 : 0 < |X| - 1000000000 * |W| := by exact_mod_cast hZ1
  have z2 : |X| - 1000000000 * |W| < 1 := by exact_mod_cast hZ2
  omega

/-- The tolerance test on two `double`s: a difference below the exact bound
`1e-9 * max(1, |x|, |y|)` never exceeds the rounded tolerance. -/
theorem tol_doubles (x y : ℚ) (hdx : arredD x = x) (hdy : arredD y = y)
    (h : |x - y| < 1 / 1000000000 * max 1 (max |x| |y|)) :
    |arredLD (x - y)| ≤ arredLD (LIT_1E_9L * max 1 (max |x| |y|)) := by
  rcases le_or_lt (max |x| |y|) 1 with hs | hs
  · rw [max_eq_left hs] at h ⊢
    rw [mul_one] at h ⊢
    rw [arredLD_abs, show arredLD LIT_1E_9L = LIT_1E_9L from arredLD_idem _]
    rcases eq_or_lt_of_le (abs_nonneg (x - y)) with h0 | h0
    · rw [← h0, arredLD_zero]; exact LIT_1E_9L_nonneg
    · exact arredLD_mono _ _ h0 (le_of_lt h)
  · rw [max_eq_right (le_of_lt hs)] at h ⊢
    rcases le_total |y| |x| with hxy | hxy
    · rw [max_eq_left hxy] at h hs ⊢
      exact tol_doubles_grandes x y hdx hdy hs h
    · rw [max_eq_right hxy] at h hs ⊢
      rw [← dif_troca x y]
      rw [abs_sub_comm] at h
      exact tol_doubles_grandes y x hdy hdx hs h

/-- The literal `1e-9L`: the nearest `long double` lies just below `1e-9`. -/
theorem LIT_1E_9L_valor : LIT_1E_9L = 9903520314283042199 / 2 ^ 93 := by
  have h := arredLD_aval (1 / 1000000000) (-30) 9903520314283042199
    (by
      rw [zpow_neg, show (30 : ℤ) = ((30 : ℕ) : ℤ) from rfl, zpow_natCast,
        abs_of_pos (by norm_num)]
      norm_num)
    (by
      rw [show (-30 : ℤ) + 1 = -29 from rfl, zpow_neg,
        show (29 : ℤ) = ((29 : ℕ) : ℤ) from rfl, zpow_natCast, abs_of_pos (by norm_num)]
      norm_num)
    (by
      left
      rw [zpow_neg, show (30 : ℤ) = ((30 : ℕ) : ℤ) from rfl, zpow_natCast]
      rw [abs_lt]
      constructor <;> norm_num)
  unfold LIT_1E_9L
  rw [h, zpow_neg, show (30 : ℤ) = ((30 : ℕ) : ℤ) from rfl, zpow_natCast]
  norm_num

/-- A value within the rounding error of the two conversions lies within the
relative tolerance `1e-9 * max(1, |r|, |x|)` of the exact one. -/
theorem erro_na_tolerancia (r x : ℚ) (h : |r - x| ≤ |x| / 2 ^ 52 + 1 / 2 ^ 1075) :
    |r - x| < 1 / 1000000000 * max 1 (max |r| |x|) := by
  have h1 : (1 : ℚ) ≤ max 1 (max |r| |x|) := le_max_left _ _
  have h2 : |x| ≤ max 1 (max |r| |x|) := le_trans (le_max_right _ _) (le_max_right _ _)
  have hc : (1 / 2 ^ 52 + 1 / 2 ^ 1075 : ℚ) < 1 / 1000000000 := by norm_num
  have hpos : (0 : ℚ) < max 1 (max |r| |x|) := by linarith
  calc |r - x| ≤ |x| / 2 ^ 52 + 1 / 2 ^ 1075 := h
    _ ≤ max 1 (max |r| |x|) / 2 ^ 52 + max 1 (max |r| |x|) * (1 / 2 ^ 1075) := by
        have ha : |x| / 2 ^ 52 ≤ max 1 (max |r| |x|) / 2 ^ 52 :=
          div_le_div_of_nonneg_right h2 (by positivity)
        have hb : (1 / 2 ^ 1075 : ℚ) ≤ max 1 (max |r| |x|) * (1 / 2 ^ 1075) :=
          le_mul_of_one_le_left (by positivity) h1
        linarith
    _ = (1 / 2 ^ 52 + 1 / 2 ^ 1075) * max 1 (max |r| |x|) := by ring
    _ < 1 / 1000000000 * max 1 (max |r| |x|) := mul_lt_mul_of_pos_right hc hpos

/-- The value of `densidade` for a finite positive area. -/
theorem densidade_forma (c : Carta) (q : ℚ) (hA : c.area = fin q) (hq : 0 < q) :
    densidade (some c) = some (toDouble (fin (arredLD ((c.populacao : ℚ) / q)))) := by
  have hne : q ≠ 0 := ne_of_gt hq
  simp [densidade, hA, Fp.le, not_le.mpr hq, ofNat, Fp.div, hne]

/-- Rounding of the significand: one inhabitant on three square kilometres has
density `0x1.5555555555555p-2`, not one third. -/
theorem densidade_um_terco :
    densidade (some (carta 1 3 0 0)) = some (fin (6004799503160661 / 2 ^ 54)) := by
  have hquo : (((carta 1 3 0 0).populacao : ℚ)) / 3 = 1 / 3 := by simp [carta]
  have hLD : arredLD (1 / 3) = 12297829382473034411 / 2 ^ 65 := by
    have h := arredLD_aval (1 / 3) (-2) 12297829382473034411
      (by
        rw [zpow_neg, show (2 : ℤ) = ((2 : ℕ) : ℤ) from rfl, zpow_natCast,
          abs_of_pos (by norm_num)]
        norm_num)
      (by
        rw [show (-2 : ℤ) + 1 = -1 from rfl, zpow_neg,
          show (1 : ℤ) = ((1 : ℕ) : ℤ) from rfl, zpow_natCast, abs_of_pos (by norm_num)]
        norm_num)
      (by
        left
        rw [zpow_neg, show (2 : ℤ) = ((2 : ℕ) : ℤ) from rfl, zpow_natCast]
        rw [abs_lt]
        constructor <;> norm_num)
    rw [h, zpow_neg, show (2 : ℤ) = ((2 : ℕ) : ℤ) from rfl, zpow_natCast]
    norm_num
  have hD : arredD (12297829382473034411 / 2 ^ 65) = 6004799503160661 / 2 ^ 54 := by
    have h := arredD_aval (12297829382473034411 / 2 ^ 65) (-2) 6004799503160661
      (by
        rw [zpow_neg, show (2 : ℤ) = ((2 : ℕ) : ℤ) from rfl, zpow_natCast,
          abs_of_pos (by norm_num)]
        norm_num)
      (by
        rw [show (-2 : ℤ) + 1 = -1 from rfl, zpow_neg,
          show (1 : ℤ) = ((1 : ℕ) : ℤ) from rfl, zpow_natCast, abs_of_pos (by norm_num)]
        norm_num)
      (by
        left
        rw [show max (-2 : ℤ) (-1022) = -2 from rfl, zpow_neg,
          show (2 : ℤ) = ((2 : ℕ) : ℤ) from rfl, zpow_natCast]
        rw [abs_lt]
        constructor <;> norm_num)
    rw [h, show max (-2 : ℤ) (-1022) = -2 from rfl, zpow_neg,
      show (2 : ℤ) = ((2 : ℕ) : ℤ) from rfl, zpow_natCast]
    norm_num
  rw [densidade_forma (carta 1 3 0 0) 3 rfl (by norm_num), hquo, hLD]
  rcases toDouble_fin_casos (12297829382473034411 / 2 ^ 65) with ⟨h, -⟩ | ⟨h, -⟩ | ⟨-, -, e⟩
  · exfalso
    have : (12297829382473034411 / 2 ^ 65 : ℚ) < DBL_OVF := pequeno_lt_DBL_OVF _ (by norm_num)
    linarith
  · exfalso
    have := DBL_OVF_pos
    have : (0 : ℚ) < 12297829382473034411 / 2 ^ 65 := by positivity
    linarith
  · rw [e, hD]

/-- Rounding at the overflow threshold: for population 4629700416936868607 on
the area `0x1.00fffffffffffp-962` the exact quotient is below `2^1024 - 2^970`,
the `long double` quotient is rounded up to it, and the Density is infinite. -/
theorem densidade_no_limiar :
    ((carta 4629700416936868607 (4521191813414911 / 2 ^ 1014) 0 0).populacao : ℚ)
      / (4521191813414911 / 2 ^ 1014) < DBL_OVF ∧
    densidade (some (carta 4629700416936868607 (4521191813414911 / 2 ^ 1014) 0 0))
      = some pinf := by
  have hquo : ((carta 4629700416936868607 (4521191813414911 / 2 ^ 1014) 0 0).populacao : ℚ)
      / (4521191813414911 / 2 ^ 1014)
      = 4629700416936868607 * 2 ^ 1014 / 4521191813414911 := by
    simp [carta]
    field_simp
  have hLD : arredLD (4629700416936868607 * 2 ^ 1014 / 4521191813414911) = DBL_OVF := by
    have h := arredLD_aval (4629700416936868607 * 2 ^ 1014 / 4521191813414911) 1023
      18446744073709550592
      (by
        rw [show (1023 : ℤ) = ((1023 : ℕ) : ℤ) from rfl, zpow_natCast,
          abs_of_pos (by positivity)]
        norm_num)
      (by
        rw [show (1023 : ℤ) + 1 = ((1024 : ℕ) : ℤ) from rfl, zpow_natCast,
          abs_of_pos (by positivity)]
        norm_num)
      (by
        left
        rw [show (1023 : ℤ) = ((1023 : ℕ) : ℤ) from rfl, zpow_natCast]
        rw [abs_lt]
        constructor <;> norm_num)
    rw [h, show (1023 : ℤ) = ((1023 : ℕ) : ℤ) from rfl, zpow_natCast]
    unfold DBL_OVF
    norm_num
  constructor
  · rw [hquo]
    unfold DBL_OVF
    norm_num
  · rw [densidade_forma _ (4521191813414911 / 2 ^ 1014) rfl (by positivity), hquo, hLD]
    rcases toDouble_fin_casos DBL_OVF with ⟨-, e⟩ | ⟨h, -⟩ | ⟨h, -, -⟩
    · rw [e]
    · exfalso
      have := DBL_OVF_pos
      linarith
    · exact absurd h (lt_irrefl _)

/-- What `fgets` leaves is never longer than what it was given. -/
theorem fgets_aux_resto (k : Nat) (cs : List Char) :
    (fgets_aux k cs).2.length ≤ cs.length := by
  induction k generalizing cs with
  | zero => simp [fgets_aux]
  | succ k ih =>
    cases cs with
    | nil => simp [fgets_aux]
    | cons c cs =>
      unfold fgets_aux
      by_cases h : c = Char.ofNat 10
      · simp [h]
      · simp only [h, if_false, List.length_cons]
        exact Nat.le_succ_of_le (ih cs)

/-- A successful `read_line` on a 64-byte buffer consumes at least one character. -/
theorem read_line_consome (entrada buf resto : List Char)
    (h : read_line 64 entrada = some (buf, resto)) : resto.length < entrada.length := by
  cases entrada with
  | nil => simp [read_line, fgets] at h
  | cons c cs =>
    simp only [read_line, fgets, Nat.add_one_sub_one, Option.some.injEq, Prod.mk.injEq] at h
    obtain ⟨-, hr⟩ := h
    rw [← hr]
    unfold fgets_aux
    by_cases hc : c = Char.ofNat 10
    · simp [hc]
    · simp only [hc, if_false, List.length_cons]
      exact Nat.lt_succ_of_le (fgets_aux_resto 62 cs)

/-- With more iterations than characters the loop of `ler_opcao_atributo` returns,
and what it returns is either the sentinel `ATR_INVALIDO`, at end of input, or an
attribute in `1..6` other than the excluded one. -/
theorem ler_opcao_atributo_laco_retorna (exclui : Atributo) (n : Nat) (entrada : List Char)
    (hn : entrada.length < n) :
    ∃ a resto, ler_opcao_atributo_laco n exclui entrada = some (a, resto) ∧
      ((a = ATR_INVALIDO ∧ resto = []) ∨ (1 ≤ a ∧ a ≤ 6 ∧ a ≠ exclui)) := by
  induction n generalizing entrada with
  | zero => exact absurd hn (Nat.not_lt_zero _)
  | succ n ih =>
    unfold ler_opcao_atributo_laco
    cases hrl : read_line 64 entrada with
    | none =>
      have he : entrada = [] := by
        cases entrada with
        | nil => rfl
        | cons c cs => simp [read_line, fgets] at hrl
      exact ⟨ATR_INVALIDO, entrada, rfl, Or.inl ⟨rfl, he⟩⟩
    | some p =>
      obtain ⟨buf, resto⟩ := p
      have hlt := read_line_consome entrada buf resto hrl
      simp only []
      by_cases hop : atoi buf ≥ ATR_POPULACAO ∧ atoi buf ≤ ATR_PIB_PER_CAPITA ∧
          atoi buf ≠ exclui
      · rw [if_pos hop]
        exact ⟨atoi buf, resto, rfl, Or.inr ⟨hop.1, hop.2.1, hop.2.2⟩⟩
      · rw [if_neg hop]
        exact ih resto (by omega)

/-- The function `ler_opcao_atributo` always returns: the sentinel at end of
input, otherwise an attribute in `1..6` other than the excluded one. -/
theorem ler_opcao_atributo_retorna (exclui : Atributo) (entrada : List Char) :
    ∃ a resto, ler_opcao_atributo exclui entrada = some (a, resto) ∧
      ((a = ATR_INVALIDO ∧ resto = []) ∨ (1 ≤ a ∧ a ≤ 6 ∧ a ≠ exclui)) :=
  ler_opcao_atributo_laco_retorna exclui (entrada.length + 1) entrada (Nat.lt_succ_self _)

/-- The function `menu_comparar` on two cards always reaches `comparar_duplo`,
and the attributes it passes are valid and distinct unless the input ended
before the secondary attribute was chosen. -/
theorem menu_comparar_argumentos (c1 c2 : Carta) (entrada : List Char) :
    ∃ ch, menu_comparar (some c1) (some c2) entrada = some ch ∧
      ch.resultado = comparar_duplo c1 c2 ch.prim ch.sec ∧
      (ch.sec = ATR_INVALIDO ∨
        (1 ≤ ch.prim ∧ ch.prim ≤ 6 ∧ 1 ≤ ch.sec ∧ ch.sec ≤ 6 ∧ ch.prim ≠ ch.sec)) := by
  obtain ⟨prim, e1, hp, hpv⟩ := ler_opcao_atributo_retorna ATR_INVALIDO entrada
  obtain ⟨sec, e2, hs, hsv⟩ := ler_opcao_atributo_retorna prim e1
  refine ⟨⟨prim, sec, comparar_duplo c1 c2 prim sec, e2⟩, by simp [menu_comparar, hp, hs],
    rfl, ?_⟩
  rcases hsv with ⟨h0, -⟩ | ⟨h1, h2, h3⟩
  · exact Or.inl h0
  · rcases hpv with ⟨hp0, he⟩ | ⟨hp1, hp2, -⟩
    · subst he
      have hfim : ler_opcao_atributo prim [] = some (ATR_INVALIDO, []) := by
        simp [ler_opcao_atributo, ler_opcao_atributo_laco, read_line, fgets]
      rw [hfim] at hs
      simp only [Option.some.injEq, Prod.mk.injEq] at hs
      exact Or.inl hs.1.symm
    · exact Or.inr ⟨hp1, hp2, h1, h2, fun h => h3 h.symm⟩

/-! ## The claims -/

/-- C7: `cmp_long_double` is symmetric in both modes: for all values `a` and `b`,
finite or not, and for both values of `integer`, comparing `a` with `b` gives the
negation of comparing `b` with `a`. -/
theorem cmp_long_double_simetrica (a b : Fp) (integer : Bool) :
    cmp_long_double a b integer = - cmp_long_double b a integer := by
  cases integer with
  | true => exact cmp_inteiro_troca a b
  | false => exact cmp_tolerancia_troca a b

/-- C1: for any two cards and any primary and secondary attribute, when the
comparison of the two primary values (in the primary attribute's own mode) is not
equal, `comparar_duplo` decides at the primary stage: the final winner is the
primary winner, card 1 or card 2, the printed justification is the primary one,
and the result is the same for every secondary attribute.  Density is the only
lower-wins attribute.  For well-formed cards the winner is the card with the
larger primary value when the attribute is higher-wins and the card with the
smaller primary value when it is lower-wins. -/
theorem comparar_duplo_decide_no_primario (c1 c2 : Carta) (prim sec : Atributo)
    (v1 v2 : Fp)
    (hv1 : attr_value_ld c1 prim = some v1) (hv2 : attr_value_ld c2 prim = some v2)
    (hne : cmp_long_double v1 v2 (get_attr_info prim).inteiro ≠ 0) :
    ∃ r, comparar_duplo c1 c2 prim sec = some r ∧
      r.vencedorPrimario ≠ -1 ∧ r.vencedorFinal = r.vencedorPrimario ∧
      (r.vencedorFinal = 1 ∨ r.vencedorFinal = 2) ∧
      justificativa r = some Justificativa.primario ∧
      (∀ sec2 : Atributo, comparar_duplo c1 c2 prim sec2 = some r) ∧
      ((get_attr_info prim).menorVence = true ↔ prim = ATR_DENSIDADE) ∧
      (c1.valida → c2.valida →
        ((get_attr_info prim).menorVence = false →
          (r.vencedorFinal = 1 ∧ Fp.lt v2 v1 = true) ∨
            (r.vencedorFinal = 2 ∧ Fp.lt v1 v2 = true)) ∧
        ((get_attr_info prim).menorVence = true →
          (r.vencedorFinal = 1 ∧ Fp.lt v1 v2 = true) ∨
            (r.vencedorFinal = 2 ∧ Fp.lt v2 v1 = true))) := by
  have hfaixa : 1 ≤ prim ∧ prim ≤ 6 := by
    by_contra hout
    obtain ⟨e1, hi⟩ := attr_fora_da_faixa c1 prim hout
    obtain ⟨e2, -⟩ := attr_fora_da_faixa c2 prim hout
    rw [hv1] at e1
    rw [hv2] at e2
    cases e1; cases e2
    apply hne
    rw [hi]
    simp [cmp_long_double, is_nan_or_inf_nan]
  refine ⟨_, comparar_duplo_primario c1 c2 prim sec v1 v2 hv1 hv2 hne, ?_, rfl, ?_, ?_,
    fun sec2 => comparar_duplo_primario c1 c2 prim sec2 v1 v2 hv1 hv2 hne,
    menorVence_sse_densidade prim, ?_⟩
  · simp only []
    split_ifs <;> decide
  · simp only []
    split_ifs <;> simp
  · unfold justificativa
    simp only []
    split_ifs <;> simp_all
  · intro hc1 hc2
    have hn1 := attr_value_ld_nonneg c1 hc1 prim hfaixa v1 hv1
    have hn2 := attr_value_ld_nonneg c2 hc2 prim hfaixa v2 hv2
    obtain ⟨hgt, hlt⟩ := cmp_long_double_ordem v1 v2 (get_attr_info prim).inteiro hn1 hn2
    constructor
    · intro hm
      simp only [hm]
      rcases cmp_long_double_faixa v1 v2 (get_attr_info prim).inteiro with h | h | h
      · right
        exact ⟨by simp [h], hlt h⟩
      · exact absurd h hne
      · left
        exact ⟨by simp [h], hgt h⟩
    · intro hm
      simp only [hm]
      rcases cmp_long_double_faixa v1 v2 (get_attr_info prim).inteiro with h | h | h
      · left
        exact ⟨by simp [h], hlt h⟩
      · exact absurd h hne
      · right
        exact ⟨by simp [h], hgt h⟩

/-- Witness for C1, the scenario of the specification: populations 1000 and 2000
on an area of 10 give densities 100 and 200, and with Density as primary
attribute the first card wins at the primary stage. -/
theorem comparar_duplo_decide_no_primario_witness :
    (carta 1000 10 0 0).valida ∧ (carta 2000 10 0 0).valida ∧
    attr_value_ld (carta 1000 10 0 0) ATR_DENSIDADE = some (fin 100) ∧
    attr_value_ld (carta 2000 10 0 0) ATR_DENSIDADE = some (fin 200) ∧
    cmp_long_double (fin 100) (fin 200) (get_attr_info ATR_DENSIDADE).inteiro ≠ 0 ∧
    comparar_duplo (carta 1000 10 0 0) (carta 2000 10 0 0) ATR_DENSIDADE ATR_POPULACAO
      = some ⟨1, 1⟩ ∧
    ∃ r, comparar_duplo (carta 1000 10 0 0) (carta 2000 10 0 0) ATR_DENSIDADE ATR_POPULACAO
        = some r ∧
      r.vencedorFinal = r.vencedorPrimario ∧
      justificativa r = some Justificativa.primario := by
  have hc1 : (carta 1000 10 0 0).valida :=
    carta_valida 1000 0 10 0 (by norm_num) (pequeno_lt_DBL_OVF _ (by norm_num)) dez_D
      (le_refl 0) DBL_OVF_pos zero_D (by norm_num) (by norm_num)
  have hc2 : (carta 2000 10 0 0).valida :=
    carta_valida 2000 0 10 0 (by norm_num) (pequeno_lt_DBL_OVF _ (by norm_num)) dez_D
      (le_refl 0) DBL_OVF_pos zero_D (by norm_num) (by norm_num)
  have hv1 : attr_value_ld (carta 1000 10 0 0) ATR_DENSIDADE = some (fin 100) := by
    have h := densidade_exata (carta 1000 10 0 0) 10 100 rfl (by norm_num)
      (by simp [carta]; norm_num) cem_LD cem_D (pequeno_lt_DBL_OVF _ (by norm_num))
    simpa [attr_value_ld] using h
  have hv2 : attr_value_ld (carta 2000 10 0 0) ATR_DENSIDADE = some (fin 200) := by
    have h := densidade_exata (carta 2000 10 0 0) 10 200 rfl (by norm_num)
      (by simp [carta]; norm_num) duzentos_LD duzentos_D (pequeno_lt_DBL_OVF _ (by norm_num))
    simpa [attr_value_ld] using h
  have hpos := DBL_OVF_pos
  have hf1 : is_nan_or_inf (fin 100) = false :=
    classificado_finito 100 (by linarith) (pequeno_lt_DBL_OVF _ (by norm_num))
  have hf2 : is_nan_or_inf (fin 200) = false :=
    classificado_finito 200 (by linarith) (pequeno_lt_DBL_OVF _ (by norm_num))
  have hi : (get_attr_info ATR_DENSIDADE) = ⟨ATR_DENSIDADE, "Densidade", "hab/km^2", true, false⟩ := by
    decide
  have hcmp : cmp_long_double (fin 100) (fin 200) (get_attr_info ATR_DENSIDADE).inteiro = -1 := by
    rw [hi, cmp_longe 100 200 hf1 hf2 (by norm_num [abs_of_nonneg, abs_of_neg])]
    norm_num
  have hne : cmp_long_double (fin 100) (fin 200) (get_attr_info ATR_DENSIDADE).inteiro ≠ 0 := by
    rw [hcmp]; decide
  obtain ⟨r, hr, -, hfin, -, hj, -⟩ :=
    comparar_duplo_decide_no_primario (carta 1000 10 0 0) (carta 2000 10 0 0)
      ATR_DENSIDADE ATR_POPULACAO (fin 100) (fin 200) hv1 hv2 hne
  refine ⟨hc1, hc2, hv1, hv2, hne, ?_, r, hr, hfin, hj⟩
  rw [comparar_duplo_primario _ _ _ _ _ _ hv1 hv2 hne, hcmp, hi]
  simp

/-- C2: for any two cards and any primary and secondary attribute, when the two
primary values compare equal in the primary attribute's own mode, `comparar_duplo`
takes the secondary branch (`vencedorPrimario` is `-1`, the test that selects the
secondary stage and its message) and the final outcome is the decision on the
secondary values with the secondary attribute's own direction and mode: a tie when
they compare equal, otherwise the larger value for higher-wins and the smaller for
lower-wins; any other primary attribute that ties gives the same result. -/
theorem comparar_duplo_desempate (c1 c2 : Carta) (prim sec : Atributo) (v1p v2p : Fp)
    (hv1 : attr_value_ld c1 prim = some v1p) (hv2 : attr_value_ld c2 prim = some v2p)
    (heq : cmp_long_double v1p v2p (get_attr_info prim).inteiro = 0) :
    ∃ v1s v2s r, attr_value_ld c1 sec = some v1s ∧ attr_value_ld c2 sec = some v2s ∧
      comparar_duplo c1 c2 prim sec = some r ∧
      r.vencedorPrimario = -1 ∧
      (cmp_long_double v1s v2s (get_attr_info sec).inteiro = 0 →
        r.vencedorFinal = 0 ∧ justificativa r = none) ∧
      (cmp_long_double v1s v2s (get_attr_info sec).inteiro ≠ 0 →
        justificativa r = some Justificativa.secundario) ∧
      ((get_attr_info sec).menorVence = false →
        (cmp_long_double v1s v2s (get_attr_info sec).inteiro = 1 → r.vencedorFinal = 1) ∧
        (cmp_long_double v1s v2s (get_attr_info sec).inteiro = -1 → r.vencedorFinal = 2)) ∧
      ((get_attr_info sec).menorVence = true →
        (cmp_long_double v1s v2s (get_attr_info sec).inteiro = -1 → r.vencedorFinal = 1) ∧
        (cmp_long_double v1s v2s (get_attr_info sec).inteiro = 1 → r.vencedorFinal = 2)) ∧
      (∀ (prim2 : Atributo) (w1 w2 : Fp), attr_value_ld c1 prim2 = some w1 →
        attr_value_ld c2 prim2 = some w2 →
        cmp_long_double w1 w2 (get_attr_info prim2).inteiro = 0 →
        comparar_duplo c1 c2 prim2 sec = some r) := by
  obtain ⟨v1s, h3⟩ := attr_value_ld_total c1 sec
  obtain ⟨v2s, h4⟩ := attr_value_ld_total c2 sec
  refine ⟨v1s, v2s, _, h3, h4,
    comparar_duplo_secundario c1 c2 prim sec v1p v2p v1s v2s hv1 hv2 h3 h4 heq, rfl,
    ?_, ?_, ?_, ?_, ?_⟩
  · intro h0
    simp [justificativa, h0]
  · intro hne
    unfold justificativa
    simp only [if_neg hne]
    split_ifs <;> simp_all
  · intro hm
    constructor
    · intro h1
      simp [h1, hm]
    · intro h1
      simp [h1, hm]
  · intro hm
    constructor
    · intro h1
      simp [h1, hm]
    · intro h1
      simp [h1, hm]
  · intro prim2 w1 w2 hw1 hw2 hw
    exact comparar_duplo_secundario c1 c2 prim2 sec w1 w2 v1s v2s hw1 hw2 h3 h4 hw

/-- Witness for C2, the two scenarios of the specification: two cards of area 0
tie on Density (both infinite) and the larger population wins at the secondary
stage; two cards with PIB 0 and population 0 tie on PIB per capita (both 0) and
the larger area wins at the secondary stage. -/
theorem comparar_duplo_desempate_witness :
    (attr_value_ld (carta 1000 0 0 0) ATR_DENSIDADE = some pinf ∧
     attr_value_ld (carta 2000 0 0 0) ATR_DENSIDADE = some pinf ∧
     cmp_long_double pinf pinf (get_attr_info ATR_DENSIDADE).inteiro = 0 ∧
     comparar_duplo (carta 1000 0 0 0) (carta 2000 0 0 0) ATR_DENSIDADE ATR_POPULACAO
       = some ⟨-1, 2⟩ ∧
     ∃ r, comparar_duplo (carta 1000 0 0 0) (carta 2000 0 0 0) ATR_DENSIDADE ATR_POPULACAO
         = some r ∧ r.vencedorPrimario = -1) ∧
    (attr_value_ld (carta 0 5 0 0) ATR_PIB_PER_CAPITA = some (fin 0) ∧
     attr_value_ld (carta 0 7 0 0) ATR_PIB_PER_CAPITA = some (fin 0) ∧
     cmp_long_double (fin 0) (fin 0) (get_attr_info ATR_PIB_PER_CAPITA).inteiro = 0 ∧
     comparar_duplo (carta 0 5 0 0) (carta 0 7 0 0) ATR_PIB_PER_CAPITA ATR_AREA
       = some ⟨-1, 2⟩ ∧
     ∃ r, comparar_duplo (carta 0 5 0 0) (carta 0 7 0 0) ATR_PIB_PER_CAPITA ATR_AREA
         = some r ∧ r.vencedorPrimario = -1) := by
  have hd1 : attr_value_ld (carta 1000 0 0 0) ATR_DENSIDADE = some pinf := by
    simp [attr_value_ld, densidade, carta, Fp.le]
  have hd2 : attr_value_ld (carta 2000 0 0 0) ATR_DENSIDADE = some pinf := by
    simp [attr_value_ld, densidade, carta, Fp.le]
  have hdc : cmp_long_double pinf pinf (get_attr_info ATR_DENSIDADE).inteiro = 0 := by
    have hi : (get_attr_info ATR_DENSIDADE).inteiro = false := by decide
    rw [hi]
    simp [cmp_long_double, is_nan_or_inf_pinf]
  have hp1 : attr_value_ld (carta 1000 0 0 0) ATR_POPULACAO = some (fin 1000) := by
    simp [attr_value_ld, carta, ofNat]
  have hp2 : attr_value_ld (carta 2000 0 0 0) ATR_POPULACAO = some (fin 2000) := by
    simp [attr_value_ld, carta, ofNat]
  have hpc : cmp_long_double (fin 1000) (fin 2000) (get_attr_info ATR_POPULACAO).inteiro = -1 := by
    have hi : (get_attr_info ATR_POPULACAO).inteiro = true := by decide
    rw [hi, cmp_long_double_inteiro]
    simp [Fp.lt]
    norm_num
  have hg1 : attr_value_ld (carta 0 5 0 0) ATR_PIB_PER_CAPITA = some (fin 0) := by
    simp [attr_value_ld, pib_per_capita, carta]
  have hg2 : attr_value_ld (carta 0 7 0 0) ATR_PIB_PER_CAPITA = some (fin 0) := by
    simp [attr_value_ld, pib_per_capita, carta]
  have hpos := DBL_OVF_pos
  have hz : is_nan_or_inf (fin 0) = false :=
    classificado_finito 0 (by linarith) hpos
  have hgc : cmp_long_double (fin 0) (fin 0) (get_attr_info ATR_PIB_PER_CAPITA).inteiro = 0 := by
    have hi : (get_attr_info ATR_PIB_PER_CAPITA).inteiro = false := by decide
    rw [hi, cmp_perto 0 0 hz hz (by norm_num)]
  have ha1 : attr_value_ld (carta 0 5 0 0) ATR_AREA = some (fin 5) := by
    simp [attr_value_ld, carta]
  have ha2 : attr_value_ld (carta 0 7 0 0) ATR_AREA = some (fin 7) := by
    simp [attr_value_ld, carta]
  have h5 : is_nan_or_inf (fin 5) = false :=
    classificado_finito 5 (by linarith) (pequeno_lt_DBL_OVF _ (by norm_num))
  have h7 : is_nan_or_inf (fin 7) = false :=
    classificado_finito 7 (by linarith) (pequeno_lt_DBL_OVF _ (by norm_num))
  have hac : cmp_long_double (fin 5) (fin 7) (get_attr_info ATR_AREA).inteiro = -1 := by
    have hi : (get_attr_info ATR_AREA).inteiro = false := by decide
    rw [hi, cmp_longe 5 7 h5 h7 (by norm_num [abs_of_nonneg, abs_of_neg])]
    norm_num
  have hmP : (get_attr_info ATR_POPULACAO).menorVence = false := by decide
  have hmA : (get_attr_info ATR_AREA).menorVence = false := by decide
  obtain ⟨_, _, r, -, -, hr, hrp, -⟩ :=
    comparar_duplo_desempate (carta 1000 0 0 0) (carta 2000 0 0 0) ATR_DENSIDADE
      ATR_POPULACAO pinf pinf hd1 hd2 hdc
  obtain ⟨_, _, r2, -, -, hr2, hrp2, -⟩ :=
    comparar_duplo_desempate (carta 0 5 0 0) (carta 0 7 0 0) ATR_PIB_PER_CAPITA
      ATR_AREA (fin 0) (fin 0) hg1 hg2 hgc
  refine ⟨⟨hd1, hd2, hdc, ?_, r, hr, hrp⟩, ⟨hg1, hg2, hgc, ?_, r2, hr2, hrp2⟩⟩
  · rw [comparar_duplo_secundario _ _ _ _ _ _ _ _ hd1 hd2 hp1 hp2 hdc, hpc, hmP]
    simp
  · rw [comparar_duplo_secundario _ _ _ _ _ _ _ _ hg1 hg2 ha1 ha2 hgc, hac, hmA]
    simp

/-- C10: the decision does not favour a card position.  For all cards and all
attributes, `comparar_duplo` returns a result for both orders of the cards, the
result with the cards exchanged is the mirror of the original one (winner 1
becomes winner 2 and conversely, a tie stays a tie), and the stage at which the
decision is taken, together with the printed justification, is the same. -/
theorem comparar_duplo_espelhado (c1 c2 : Carta) (prim sec : Atributo) :
    ∃ r r2, comparar_duplo c1 c2 prim sec = some r ∧
      comparar_duplo c2 c1 prim sec = some r2 ∧
      r2.vencedorFinal = espelho r.vencedorFinal ∧
      r2.vencedorPrimario = espelho r.vencedorPrimario ∧
      (r.vencedorFinal = 0 ∨ r.vencedorFinal = 1 ∨ r.vencedorFinal = 2) ∧
      (r2.vencedorPrimario = -1 ↔ r.vencedorPrimario = -1) ∧
      justificativa r2 = justificativa r := by
  obtain ⟨v1p, h1⟩ := attr_value_ld_total c1 prim
  obtain ⟨v2p, h2⟩ := attr_value_ld_total c2 prim
  obtain ⟨v1s, h3⟩ := attr_value_ld_total c1 sec
  obtain ⟨v2s, h4⟩ := attr_value_ld_total c2 sec
  have htroca : ∀ (a b : Fp) (i : Bool),
      cmp_long_double a b i = - cmp_long_double b a i := by
    intro a b i
    cases i with
    | true => exact cmp_inteiro_troca a b
    | false => exact cmp_tolerancia_troca a b
  have hsP := htroca v2p v1p (get_attr_info prim).inteiro
  have hsS := htroca v2s v1s (get_attr_info sec).inteiro
  have hfS := cmp_long_double_faixa v1s v2s (get_attr_info sec).inteiro
  have hfP := cmp_long_double_faixa v1p v2p (get_attr_info prim).inteiro
  by_cases hz : cmp_long_double v1p v2p (get_attr_info prim).inteiro = 0
  · have hz2 : cmp_long_double v2p v1p (get_attr_info prim).inteiro = 0 := by
      rw [hsP, hz]; rfl
    refine ⟨_, _, comparar_duplo_secundario c1 c2 prim sec v1p v2p v1s v2s h1 h2 h3 h4 hz,
      comparar_duplo_secundario c2 c1 prim sec v2p v1p v2s v1s h2 h1 h4 h3 hz2, ?_⟩
    simp only [hsS]
    generalize cmp_long_double v1s v2s (get_attr_info sec).inteiro = s at hfS
    cases (get_attr_info sec).menorVence <;> rcases hfS with h | h | h <;> subst h <;>
      simp [espelho, justificativa]
  · have hz2 : cmp_long_double v2p v1p (get_attr_info prim).inteiro ≠ 0 := by
      rw [hsP]
      intro h
      apply hz
      omega
    refine ⟨_, _, comparar_duplo_primario c1 c2 prim sec v1p v2p h1 h2 hz,
      comparar_duplo_primario c2 c1 prim sec v2p v1p h2 h1 hz2, ?_⟩
    simp only [hsP]
    generalize cmp_long_double v1p v2p (get_attr_info prim).inteiro = s at hfP hz
    cases (get_attr_info prim).menorVence <;> rcases hfP with h | h | h <;> subst h <;>
      simp [espelho, justificativa] at hz ⊢

/-- C3, as stated, fails: a card of positive area whose quotient population / area
is the finite number `2^1063` has Density `+infinity`, because the quotient does
not fit a `double`. -/
theorem densidade_estoura :
    Fp.lt (fin 0) (carta 9223372036854775808 (1 / 2 ^ 1000) 0 0).area = true ∧
    ((carta 9223372036854775808 (1 / 2 ^ 1000) 0 0).populacao : ℚ) / (1 / 2 ^ 1000)
      = 2 ^ 1063 ∧
    densidade (some (carta 9223372036854775808 (1 / 2 ^ 1000) 0 0)) = some pinf ∧
    attr_value_ld (carta 9223372036854775808 (1 / 2 ^ 1000) 0 0) ATR_DENSIDADE
      = some pinf := by
  have hq : ((carta 9223372036854775808 (1 / 2 ^ 1000) 0 0).populacao : ℚ) / (1 / 2 ^ 1000)
      = 2 ^ 1063 := by
    simp [carta]; norm_num
  have hd : densidade (some (carta 9223372036854775808 (1 / 2 ^ 1000) 0 0)) = some pinf := by
    apply densidade_estouro _ (1 / 2 ^ 1000) rfl (by positivity)
    rw [hq]
    unfold DBL_OVF
    norm_num
  refine ⟨by simp [carta, Fp.lt], hq, hd, ?_⟩
  simpa [attr_value_ld] using hd

/-- C3, amended: for every card, the Density computed by `densidade`, which is
also what `attr_value_ld` returns for `ATR_DENSIDADE`, is the positive-infinity
sentinel when the area is 0.  When the area is positive it is the quotient
population / area rounded to `long double` and then to `double`: either
`+infinity`, which it is whenever the quotient reaches `2^1024 - 2^970` and never
when the quotient is at most `DBL_MAX`, or a finite value `r ≥ 0` with
`|r - population / area| ≤ 2^-52 * population / area + 2^-1075`.  For an infinite
area it is 0.  Every finite Density of a card of positive area lies within the
relative tolerance `1e-9 * max(1, |r|, population / area)` of the quotient. -/
theorem densidade_valor (c : Carta) :
    (c.area = fin 0 →
      densidade (some c) = some pinf ∧ attr_value_ld c ATR_DENSIDADE = some pinf) ∧
    (∀ q : ℚ, c.area = fin q → 0 < q →
      attr_value_ld c ATR_DENSIDADE = densidade (some c) ∧
      (densidade (some c) = some pinf ∨
        ∃ r : ℚ, densidade (some c) = some (fin r) ∧ 0 ≤ r ∧
          |r - (c.populacao : ℚ) / q| ≤ (c.populacao : ℚ) / q / 2 ^ 52 + 1 / 2 ^ 1075) ∧
      (DBL_OVF ≤ (c.populacao : ℚ) / q → densidade (some c) = some pinf) ∧
      ((c.populacao : ℚ) / q ≤ DBL_MAX → ∃ r : ℚ, densidade (some c) = some (fin r))) ∧
    (c.area = pinf →
      densidade (some c) = some (fin 0) ∧ attr_value_ld c ATR_DENSIDADE = some (fin 0)) ∧
    (∀ q r : ℚ, c.area = fin q → 0 < q → densidade (some c) = some (fin r) →
      |r - (c.populacao : ℚ) / q|
        < 1 / 1000000000 * max 1 (max |r| |(c.populacao : ℚ) / q|)) := by
  have hattr : attr_value_ld c ATR_DENSIDADE = densidade (some c) := by
    simp [attr_value_ld]
  have hpos := DBL_OVF_pos
  refine ⟨?_, ?_, ?_, ?_⟩
  rotate_left 3
  · intro q r hq hq0 hr
    rw [densidade_forma c q hq hq0] at hr
    rcases toDouble_fin_casos (arredLD ((c.populacao : ℚ) / q)) with
      ⟨-, e⟩ | ⟨-, e⟩ | ⟨-, -, e⟩
    · rw [e] at hr; cases hr
    · rw [e] at hr; cases hr
    · rw [e] at hr
      cases hr
      exact erro_na_tolerancia _ _ (dupla_erro _)
  · intro h0
    rw [hattr]
    simp [densidade, h0, Fp.le]
  · intro q hq hq0
    have hne : q ≠ 0 := ne_of_gt hq0
    have hx0 : (0 : ℚ) ≤ (c.populacao : ℚ) / q := by positivity
    have hw0 := arredLD_nonneg _ hx0
    have hform : densidade (some c) = some (toDouble (fin (arredLD ((c.populacao : ℚ) / q)))) := by
      simp [densidade, hq, Fp.le, not_le.mpr hq0, ofNat, Fp.div, hne]
    refine ⟨hattr, ?_, densidade_estouro c q hq hq0, ?_⟩
    · rcases toDouble_fin_casos (arredLD ((c.populacao : ℚ) / q)) with
        ⟨-, e⟩ | ⟨h2, -⟩ | ⟨-, -, e⟩
      · left; rw [hform, e]
      · exfalso; linarith
      · right
        refine ⟨arredD (arredLD ((c.populacao : ℚ) / q)), by rw [hform, e],
          arredD_nonneg _ hw0, ?_⟩
        have := dupla_erro ((c.populacao : ℚ) / q)
        rwa [abs_of_nonneg hx0] at this
    · intro hmax
      have hle := arredLD_le_DBL_MAX _ hx0 hmax
      have hlt := DBL_MAX_lt_OVF
      rcases toDouble_fin_casos (arredLD ((c.populacao : ℚ) / q)) with
        ⟨h1, -⟩ | ⟨h2, -⟩ | ⟨-, -, e⟩
      · exfalso; linarith
      · exfalso; linarith
      · exact ⟨_, by rw [hform, e]⟩
  · intro hinf
    rw [hattr]
    have h1 : toDouble (fin 0) = fin 0 := toDouble_fin 0 arredD_zero (le_refl 0) hpos
    simp [densidade, hinf, Fp.le, ofNat, Fp.div, h1]

/-- Witness for the amended C3: area 0 gives the infinite sentinel, and
population 1000 on area 10 gives a finite density, which is 100. -/
theorem densidade_valor_witness :
    (carta 1000 0 0 0).area = fin 0 ∧
    densidade (some (carta 1000 0 0 0)) = some pinf ∧
    (carta 1000 10 0 0).area = fin 10 ∧ (0 : ℚ) < 10 ∧
    (((carta 1000 10 0 0).populacao : ℚ) / 10 ≤ DBL_MAX) ∧
    (∃ r : ℚ, densidade (some (carta 1000 10 0 0)) = some (fin r)) ∧
    densidade (some (carta 1000 10 0 0)) = some (fin 100) := by
  have hle : (((carta 1000 10 0 0).populacao : ℚ) / 10 ≤ DBL_MAX) := by
    simp [carta, DBL_MAX]; norm_num
  refine ⟨rfl, ((densidade_valor (carta 1000 0 0 0)).1 rfl).1, rfl, by norm_num, hle,
    ((densidade_valor (carta 1000 10 0 0)).2.1 10 rfl (by norm_num)).2.2.2 hle, ?_⟩
  exact densidade_exata (carta 1000 10 0 0) 10 100 rfl (by norm_num)
    (by simp [carta]; norm_num) cem_LD cem_D (pequeno_lt_DBL_OVF _ (by norm_num))

/-- C5, as stated, fails.  For the `double`s `a = 0x1.12e0be826d695p-30` and
`b = 0x1.34668c0a57af8p-84` the difference `a - b` exceeds `1e-9 * max(1, |a|, |b|)`
and `a > b`, yet the comparison returns 0: the difference, rounded to
`long double`, equals the rounded tolerance.  And for the finite `long double`s
`2^1100 < 2^1101`, which lie beyond the range of `double`, the comparison returns
0 as well. -/
theorem cmp_tolerancia_arredonda :
    toDouble (fin VALOR_A) = fin VALOR_A ∧ toDouble (fin VALOR_B) = fin VALOR_B ∧
    1 / 1000000000 * max 1 (max |VALOR_A| |VALOR_B|) < |VALOR_A - VALOR_B| ∧
    VALOR_B < VALOR_A ∧
    cmp_long_double (fin VALOR_A) (fin VALOR_B) false = 0 ∧
    1 / 1000000000 * max 1 (max |(2 : ℚ) ^ 1100| |(2 : ℚ) ^ 1101|)
      < |(2 : ℚ) ^ 1100 - 2 ^ 1101| ∧
    (2 : ℚ) ^ 1100 < 2 ^ 1101 ∧
    cmp_long_double (fin (2 ^ 1100)) (fin (2 ^ 1101)) false = 0 := by
  have hpos := DBL_OVF_pos
  have ha0 : (0 : ℚ) < VALOR_A := by unfold VALOR_A; positivity
  have hb0 : (0 : ℚ) < VALOR_B := by unfold VALOR_B; positivity
  have ha1 : VALOR_A ≤ 1 := by unfold VALOR_A; norm_num
  have hb1 : VALOR_B ≤ 1 := by unfold VALOR_B; norm_num
  have hba : VALOR_B < VALOR_A := by unfold VALOR_A VALOR_B; norm_num
  have hAd : arredD VALOR_A = VALOR_A := by
    have h := arredD_repr 4835703278458517 (-82) (by norm_num) (by norm_num)
    have e : ((4835703278458517 : ℤ) : ℚ) * 2 ^ (-82 : ℤ) = VALOR_A := by
      unfold VALOR_A
      rw [zpow_neg, show (82 : ℤ) = ((82 : ℕ) : ℤ) from rfl, zpow_natCast]
      norm_num
    rwa [e] at h
  have hBd : arredD VALOR_B = VALOR_B := by
    have h := arredD_repr 5425440280115960 (-136) (by norm_num) (by norm_num)
    have e : ((5425440280115960 : ℤ) : ℚ) * 2 ^ (-136 : ℤ) = VALOR_B := by
      unfold VALOR_B
      rw [zpow_neg, show (136 : ℤ) = ((136 : ℕ) : ℤ) from rfl, zpow_natCast]
      norm_num
    rwa [e] at h
  have hAo : VALOR_A < DBL_OVF := pequeno_lt_DBL_OVF _ (by linarith)
  have hBo : VALOR_B < DBL_OVF := pequeno_lt_DBL_OVF _ (by linarith)
  have hfa : is_nan_or_inf (fin VALOR_A) = false := classificado_finito _ (by linarith) hAo
  have hfb : is_nan_or_inf (fin VALOR_B) = false := classificado_finito _ (by linarith) hBo
  have hmax : max 1 (max |VALOR_A| |VALOR_B|) = 1 := by
    rw [abs_of_pos ha0, abs_of_pos hb0]
    exact max_eq_left (max_le ha1 hb1)
  have hdif : arredLD (VALOR_A - VALOR_B) = 9903520314283042199 / 2 ^ 93 := by
    have h := arredLD_aval (VALOR_A - VALOR_B) (-30) 9903520314283042199
      (by
        rw [zpow_neg, show (30 : ℤ) = ((30 : ℕ) : ℤ) from rfl, zpow_natCast,
          abs_of_pos (by linarith)]
        unfold VALOR_A VALOR_B
        norm_num)
      (by
        rw [show (-30 : ℤ) + 1 = -29 from rfl, zpow_neg,
          show (29 : ℤ) = ((29 : ℕ) : ℤ) from rfl, zpow_natCast, abs_of_pos (by linarith)]
        unfold VALOR_A VALOR_B
        norm_num)
      (by
        left
        rw [zpow_neg, show (30 : ℤ) = ((30 : ℕ) : ℤ) from rfl, zpow_natCast]
        unfold VALOR_A VALOR_B
        rw [abs_lt]
        constructor <;> norm_num)
    rw [h, zpow_neg, show (30 : ℤ) = ((30 : ℕ) : ℤ) from rfl, zpow_natCast]
    norm_num
  have hgrande : is_nan_or_inf (fin (2 ^ 1101)) = true := by
    rw [is_nan_or_inf_fin]
    simp only [decide_eq_true_eq]
    left
    unfold DBL_OVF
    norm_num
  refine ⟨toDouble_fin _ hAd (le_of_lt ha0) hAo, toDouble_fin _ hBd (le_of_lt hb0) hBo,
    ?_, hba, ?_, ?_, by norm_num, ?_⟩
  · rw [hmax, abs_of_pos (by linarith)]
    unfold VALOR_A VALOR_B
    norm_num
  · rw [cmp_long_double_finitos _ _ hfa hfb, hmax, mul_one,
      show arredLD LIT_1E_9L = LIT_1E_9L from arredLD_idem _, hdif, LIT_1E_9L_valor,
      if_pos]
    rw [abs_of_pos (by positivity)]
  · rw [abs_of_pos (by positivity), abs_of_pos (by positivity),
      abs_of_neg (by norm_num)]
    rw [max_eq_right (by norm_num : (2 : ℚ) ^ 1100 ≤ 2 ^ 1101),
      max_eq_right (by norm_num : (1 : ℚ) ≤ 2 ^ 1101)]
    norm_num
  · simp [cmp_long_double, enorme_nao_finito, hgrande]

/-- C5, amended: in tolerance mode, for all finite values `x` and `y` that are
`double`s, when `|x - y| < 1e-9 * max(1, |x|, |y|)` the comparison returns 0, and
when the difference exceeds that bound by more than one part in `2^62` it returns
-1 if `x < y` and 1 if `x > y`. -/
theorem cmp_long_double_tolerancia (a b : Fp) (x y : ℚ) (ha : a = fin x) (hb : b = fin y)
    (hda : toDouble a = a) (hdb : toDouble b = b) :
    (|x - y| < 1 / 1000000000 * max 1 (max |x| |y|) →
      cmp_long_double a b false = 0) ∧
    (1 / 1000000000 * max 1 (max |x| |y|) * (1 + 1 / 2 ^ 62) < |x - y| →
      (x < y → cmp_long_double a b false = -1) ∧
      (y < x → cmp_long_double a b false = 1)) := by
  subst ha hb
  obtain ⟨hdx, hx1, hx2⟩ := double_fin x hda
  obtain ⟨hdy, hy1, hy2⟩ := double_fin y hdb
  have hfx := classificado_finito x hx1 hx2
  have hfy := classificado_finito y hy1 hy2
  constructor
  · intro h
    rw [cmp_long_double_finitos x y hfx hfy, if_pos (tol_doubles x y hdx hdy h)]
  · intro h
    rw [cmp_longe x y hfx hfy h]
    constructor
    · intro hxy
      rw [if_pos hxy]
    · intro hyx
      rw [if_neg (not_lt.mpr (le_of_lt hyx))]

/-- Witness for the amended C5: 1 and `1 + 2^-40` compare equal, 1 and 2 compare
as less, and 2 and 1 as greater. -/
theorem cmp_long_double_tolerancia_witness :
    toDouble (fin 1) = fin 1 ∧ toDouble (fin (1 + 1 / 2 ^ 40)) = fin (1 + 1 / 2 ^ 40) ∧
    toDouble (fin 2) = fin 2 ∧
    cmp_long_double (fin 1) (fin (1 + 1 / 2 ^ 40)) false = 0 ∧
    cmp_long_double (fin 1) (fin 2) false = -1 ∧
    cmp_long_double (fin 2) (fin 1) false = 1 := by
  have h1 : toDouble (fin 1) = fin 1 :=
    toDouble_fin 1 (by simpa using arredD_int 1 (by norm_num)) (by norm_num)
      (pequeno_lt_DBL_OVF _ (by norm_num))
  have h2 : toDouble (fin 2) = fin 2 :=
    toDouble_fin 2 (by simpa using arredD_int 2 (by norm_num)) (by norm_num)
      (pequeno_lt_DBL_OVF _ (by norm_num))
  have he : arredD (1 + 1 / 2 ^ 40) = 1 + 1 / 2 ^ 40 := by
    have h := arredD_repr (2 ^ 40 + 1) (-40) (by norm_num) (by norm_num)
    have e : ((2 ^ 40 + 1 : ℤ) : ℚ) * 2 ^ (-40 : ℤ) = 1 + 1 / 2 ^ 40 := by
      rw [zpow_neg, show (40 : ℤ) = ((40 : ℕ) : ℤ) from rfl, zpow_natCast]
      norm_num
    rwa [e] at h
  have h1e : toDouble (fin (1 + 1 / 2 ^ 40)) = fin (1 + 1 / 2 ^ 40) :=
    toDouble_fin _ he (by positivity) (pequeno_lt_DBL_OVF _ (by norm_num))
  refine ⟨h1, h1e, h2, ?_, ?_, ?_⟩
  · apply (cmp_long_double_tolerancia (fin 1) (fin (1 + 1 / 2 ^ 40)) 1 (1 + 1 / 2 ^ 40)
      rfl rfl h1 h1e).1
    norm_num [abs_of_nonneg, abs_of_neg]
  · refine ((cmp_long_double_tolerancia (fin 1) (fin 2) 1 2 rfl rfl h1 h2).2 ?_).1
      (by norm_num)
    norm_num [abs_of_nonneg, abs_of_neg]
  · refine ((cmp_long_double_tolerancia (fin 2) (fin 1) 2 1 rfl rfl h2 h1).2 ?_).2
      (by norm_num)
    norm_num [abs_of_nonneg, abs_of_neg]

/-- C6, as stated, fails.  A well-formed card of area 0 does not always lose the
Density decision against a well-formed card of positive area: with population
`2^63` on an area of `2^-1000` the quotient `2^1063` exceeds the range of `double`,
the cast yields infinity, both densities are infinite, the Density stage is a tie
and the card of area 0, with the larger population, wins the comparison.  And a
non-finite operand is not always reported as the larger one: against the finite
`long double` `2^1100`, which lies beyond the range of `double`, infinity compares
equal. -/
theorem densidade_area_zero_empata :
    (carta 9223372036854777856 0 0 0).valida ∧
    (carta 9223372036854775808 (1 / 2 ^ 1000) 0 0).valida ∧
    (carta 9223372036854777856 0 0 0).area = fin 0 ∧
    Fp.lt (fin 0) (carta 9223372036854775808 (1 / 2 ^ 1000) 0 0).area = true ∧
    densidade (some (carta 9223372036854777856 0 0 0)) = some pinf ∧
    densidade (some (carta 9223372036854775808 (1 / 2 ^ 1000) 0 0)) = some pinf ∧
    cmp_long_double pinf pinf (get_attr_info ATR_DENSIDADE).inteiro = 0 ∧
    comparar_duplo (carta 9223372036854777856 0 0 0)
      (carta 9223372036854775808 (1 / 2 ^ 1000) 0 0) ATR_DENSIDADE ATR_POPULACAO
      = some ⟨-1, 1⟩ ∧
    cmp_long_double pinf (fin (2 ^ 1100)) false = 0 := by
  have hd1 : densidade (some (carta 9223372036854777856 0 0 0)) = some pinf := by
    simp [densidade, carta, Fp.le]
  have hd2 : densidade (some (carta 9223372036854775808 (1 / 2 ^ 1000) 0 0)) = some pinf := by
    apply densidade_estouro _ (1 / 2 ^ 1000) rfl (by positivity)
    have hq : ((carta 9223372036854775808 (1 / 2 ^ 1000) 0 0).populacao : ℚ) / (1 / 2 ^ 1000)
        = 2 ^ 1063 := by
      simp [carta]; norm_num
    rw [hq]
    unfold DBL_OVF
    norm_num
  have ha1 : attr_value_ld (carta 9223372036854777856 0 0 0) ATR_DENSIDADE = some pinf := by
    simpa [attr_value_ld] using hd1
  have ha2 : attr_value_ld (carta 9223372036854775808 (1 / 2 ^ 1000) 0 0) ATR_DENSIDADE
      = some pinf := by
    simpa [attr_value_ld] using hd2
  have hp1 : attr_value_ld (carta 9223372036854777856 0 0 0) ATR_POPULACAO
      = some (fin 9223372036854777856) := by
    simp [attr_value_ld, carta, ofNat]
  have hp2 : attr_value_ld (carta 9223372036854775808 (1 / 2 ^ 1000) 0 0) ATR_POPULACAO
      = some (fin 9223372036854775808) := by
    simp [attr_value_ld, carta, ofNat]
  have hdc : cmp_long_double pinf pinf (get_attr_info ATR_DENSIDADE).inteiro = 0 := by
    have hi : (get_attr_info ATR_DENSIDADE).inteiro = false := by decide
    rw [hi]
    simp [cmp_long_double, is_nan_or_inf_pinf]
  have hpc : cmp_long_double (fin 9223372036854777856) (fin 9223372036854775808)
      (get_attr_info ATR_POPULACAO).inteiro = 1 := by
    have hi : (get_attr_info ATR_POPULACAO).inteiro = true := by decide
    rw [hi, cmp_long_double_inteiro]
    simp [Fp.lt]
    norm_num
  have hmP : (get_attr_info ATR_POPULACAO).menorVence = false := by decide
  have hmin : arredD (1 / 2 ^ 1000) = 1 / 2 ^ 1000 := by
    have h := arredD_repr 1 (-1000) (by norm_num) (by norm_num)
    have e : ((1 : ℤ) : ℚ) * 2 ^ (-1000 : ℤ) = 1 / 2 ^ 1000 := by
      rw [zpow_neg, show (1000 : ℤ) = ((1000 : ℕ) : ℤ) from rfl, zpow_natCast]
      norm_num
    rwa [e] at h
  refine ⟨?_, ?_, rfl, ?_, hd1, hd2, hdc, ?_, ?_⟩
  · exact carta_valida _ 0 0 0 (le_refl 0) DBL_OVF_pos zero_D (le_refl 0) DBL_OVF_pos zero_D
      (by norm_num) (by norm_num)
  · exact carta_valida _ 0 (1 / 2 ^ 1000) 0 (by positivity)
      (pequeno_lt_DBL_OVF _ (by norm_num)) hmin (le_refl 0) DBL_OVF_pos zero_D
      (by norm_num) (by norm_num)
  · simp [carta, Fp.lt]
  · rw [comparar_duplo_secundario _ _ _ _ _ _ _ _ ha1 ha2 hp1 hp2 hdc, hpc, hmP]
    simp
  · simp [cmp_long_double, is_nan_or_inf_pinf, enorme_nao_finito]

/-- C6, amended: in tolerance mode, on operands that are `double`s, two non-finite
operands (infinite or NaN) compare equal, and when exactly one operand is
non-finite it is reported as the larger one (1 when it is the first operand, -1
when it is the second).  Consequently a card of area 0 loses the Density decision
against a card of positive area whose Density is finite, in either position,
whatever the secondary attribute. -/
theorem nao_finito_e_o_maior (c1 c2 : Carta) (sec : Atributo) (r : ℚ)
    (h0 : c1.area = fin 0) (_hpos : Fp.lt (fin 0) c2.area = true)
    (hd : densidade (some c2) = some (fin r)) :
    (∀ a b : Fp, toDouble a = a → toDouble b = b →
      ((Fp.isnan a || Fp.isinf a) = true → (Fp.isnan b || Fp.isinf b) = true →
        cmp_long_double a b false = 0) ∧
      ((Fp.isnan a || Fp.isinf a) = true → (Fp.isnan b || Fp.isinf b) = false →
        cmp_long_double a b false = 1) ∧
      ((Fp.isnan a || Fp.isinf a) = false → (Fp.isnan b || Fp.isinf b) = true →
        cmp_long_double a b false = -1)) ∧
    comparar_duplo c1 c2 ATR_DENSIDADE sec = some ⟨2, 2⟩ ∧
    comparar_duplo c2 c1 ATR_DENSIDADE sec = some ⟨1, 1⟩ := by
  have hclass : ∀ a b : Fp, toDouble a = a → toDouble b = b →
      ((Fp.isnan a || Fp.isinf a) = true → (Fp.isnan b || Fp.isinf b) = true →
        cmp_long_double a b false = 0) ∧
      ((Fp.isnan a || Fp.isinf a) = true → (Fp.isnan b || Fp.isinf b) = false →
        cmp_long_double a b false = 1) ∧
      ((Fp.isnan a || Fp.isinf a) = false → (Fp.isnan b || Fp.isinf b) = true →
        cmp_long_double a b false = -1) := by
    intro a b hda hdb
    rw [← is_nan_or_inf_double a hda, ← is_nan_or_inf_double b hdb]
    refine ⟨?_, ?_, ?_⟩
    · intro ha hb
      simp [cmp_long_double, ha, hb]
    · intro ha hb
      simp [cmp_long_double, ha, hb]
    · intro ha hb
      simp [cmp_long_double, ha, hb]
  have hfin : is_nan_or_inf (fin r) = false := by
    rw [is_nan_or_inf_double (fin r) (densidade_double c2 (fin r) hd)]
    simp [Fp.isnan, Fp.isinf]
  have ha1 : attr_value_ld c1 ATR_DENSIDADE = some pinf := by
    simp [attr_value_ld, densidade, h0, Fp.le]
  have ha2 : attr_value_ld c2 ATR_DENSIDADE = some (fin r) := by
    simpa [attr_value_ld] using hd
  have hi : (get_attr_info ATR_DENSIDADE).inteiro = false := by decide
  have hm : (get_attr_info ATR_DENSIDADE).menorVence = true := by decide
  have hc12 : cmp_long_double pinf (fin r) (get_attr_info ATR_DENSIDADE).inteiro = 1 := by
    rw [hi]; simp [cmp_long_double, is_nan_or_inf_pinf, hfin]
  have hc21 : cmp_long_double (fin r) pinf (get_attr_info ATR_DENSIDADE).inteiro = -1 := by
    rw [hi]; simp [cmp_long_double, is_nan_or_inf_pinf, hfin]
  refine ⟨hclass, ?_, ?_⟩
  · rw [comparar_duplo_primario c1 c2 ATR_DENSIDADE sec pinf (fin r) ha1 ha2
      (by rw [hc12]; decide), hc12, hm]
    simp
  · rw [comparar_duplo_primario c2 c1 ATR_DENSIDADE sec (fin r) pinf ha2 ha1
      (by rw [hc21]; decide), hc21, hm]
    simp

/-- Witness for the amended C6: a card of area 0 against a card with population
2000 on area 10, whose density is 200. -/
theorem nao_finito_e_o_maior_witness :
    (carta 1000 0 0 0).area = fin 0 ∧
    Fp.lt (fin 0) (carta 2000 10 0 0).area = true ∧
    densidade (some (carta 2000 10 0 0)) = some (fin 200) ∧
    comparar_duplo (carta 1000 0 0 0) (carta 2000 10 0 0) ATR_DENSIDADE ATR_POPULACAO
      = some ⟨2, 2⟩ ∧
    comparar_duplo (carta 2000 10 0 0) (carta 1000 0 0 0) ATR_DENSIDADE ATR_POPULACAO
      = some ⟨1, 1⟩ := by
  have hpos : Fp.lt (fin 0) (carta 2000 10 0 0).area = true := by
    simp [carta, Fp.lt]
  have hd : densidade (some (carta 2000 10 0 0)) = some (fin 200) :=
    densidade_exata (carta 2000 10 0 0) 10 200 rfl (by norm_num)
      (by simp [carta]; norm_num) duzentos_LD duzentos_D (pequeno_lt_DBL_OVF _ (by norm_num))
  have h := nao_finito_e_o_maior (carta 1000 0 0 0) (carta 2000 10 0 0) ATR_POPULACAO
    200 rfl hpos hd
  exact ⟨rfl, hpos, hd, h.2.1, h.2.2⟩

/-- C8: exact-integer mode tolerates no difference.  Its operands are the
unsigned fields of the cards widened to `long double`, never NaN, and on values
that are not NaN the result is 0 exactly when the operands are equal, -1 exactly
when the first is smaller and 1 exactly when it is larger, however small the
difference.  Exact-integer mode is the mode of exactly the Population and
landmark-count attributes, so two cards with different populations never tie on
Population: the decision is taken at the primary stage and the card with the
larger population wins. -/
theorem cmp_long_double_exato (a b : Fp) (c1 c2 : Carta) (sec : Atributo)
    (ha : a ≠ nan) (hb : b ≠ nan) :
    (cmp_long_double a b true = 0 ↔ a = b) ∧
    (cmp_long_double a b true = -1 ↔ Fp.lt a b = true) ∧
    (cmp_long_double a b true = 1 ↔ Fp.gt a b = true) ∧
    (∀ t : Atributo, (get_attr_info t).inteiro = true ↔
      (t = ATR_POPULACAO ∨ t = ATR_PONTOS_TURISTICOS)) ∧
    (c1.populacao ≠ c2.populacao →
      ∃ r, comparar_duplo c1 c2 ATR_POPULACAO sec = some r ∧
        r.vencedorPrimario ≠ -1 ∧ r.vencedorFinal ≠ 0 ∧
        (r.vencedorFinal = 1 ↔ c2.populacao < c1.populacao) ∧
        (r.vencedorFinal = 2 ↔ c1.populacao < c2.populacao)) ∧
    (∀ (c : Carta) (t : Atributo), (get_attr_info t).inteiro = true →
      ∃ n : Nat, attr_value_ld c t = some (ofNat n) ∧ ofNat n ≠ nan) := by
  refine ⟨?_, ?_, ?_, inteiro_sse, ?_, ?_⟩
  rotate_left 4
  · intro c t ht
    rcases (inteiro_sse t).mp ht with h | h
    · subst h
      exact ⟨c.populacao, by simp [attr_value_ld], by simp [ofNat]⟩
    · subst h
      exact ⟨c.pontosTuristicos, by simp [attr_value_ld], by simp [ofNat]⟩
  · rw [cmp_long_double_inteiro]
    cases a <;> cases b <;> simp_all [Fp.lt]
    rename_i x y
    rcases lt_trichotomy x y with h | h | h
    · simp [h, ne_of_lt h]
    · simp [h]
    · simp [h, not_lt.mpr (le_of_lt h), ne_of_gt h]
  · rw [cmp_long_double_inteiro]
    by_cases h1 : Fp.lt a b = true
    · simp [h1]
    · by_cases h2 : Fp.lt b a = true
      · simp [h1, h2]
      · simp [h1, h2]
  · rw [cmp_long_double_inteiro]
    unfold Fp.gt
    by_cases h1 : Fp.lt a b = true
    · have h2 := lt_asymm_fp a b h1
      simp [h1, h2]
    · by_cases h2 : Fp.lt b a = true
      · simp [h1, h2]
      · simp [h1, h2]
  · intro hne
    have hp1 : attr_value_ld c1 ATR_POPULACAO = some (fin (c1.populacao : ℚ)) := by
      simp [attr_value_ld, ofNat]
    have hp2 : attr_value_ld c2 ATR_POPULACAO = some (fin (c2.populacao : ℚ)) := by
      simp [attr_value_ld, ofNat]
    have hi : (get_attr_info ATR_POPULACAO).inteiro = true := by decide
    have hm : (get_attr_info ATR_POPULACAO).menorVence = false := by decide
    rcases Nat.lt_or_gt_of_ne hne with h | h
    · have hq : (c1.populacao : ℚ) < (c2.populacao : ℚ) := by exact_mod_cast h
      have hc : cmp_long_double (fin (c1.populacao : ℚ)) (fin (c2.populacao : ℚ))
          (get_attr_info ATR_POPULACAO).inteiro = -1 := by
        rw [hi, cmp_long_double_inteiro]
        simp [Fp.lt, hq]
      refine ⟨_, comparar_duplo_primario c1 c2 ATR_POPULACAO sec _ _ hp1 hp2
        (by rw [hc]; decide), ?_⟩
      rw [hc, hm]
      simp
      omega
    · have hq : (c2.populacao : ℚ) < (c1.populacao : ℚ) := by exact_mod_cast h
      have hc : cmp_long_double (fin (c1.populacao : ℚ)) (fin (c2.populacao : ℚ))
          (get_attr_info ATR_POPULACAO).inteiro = 1 := by
        rw [hi, cmp_long_double_inteiro]
        simp [Fp.lt, hq, not_lt.mpr (le_of_lt hq)]
      refine ⟨_, comparar_duplo_primario c1 c2 ATR_POPULACAO sec _ _ hp1 hp2
        (by rw [hc]; decide), ?_⟩
      rw [hc, hm]
      simp
      omega

/-- Witness for C8: 100 and 100.0000001 are told apart, and so are
the populations 1000000000 and 1000000001, which lie within the relative
tolerance of the other mode. -/
theorem cmp_long_double_exato_witness :
    (fin 100 : Fp) ≠ nan ∧ (fin (100 + 1 / 10000000) : Fp) ≠ nan ∧
    cmp_long_double (fin 100) (fin (100 + 1 / 10000000)) true = -1 ∧
    cmp_long_double (fin 1000000000) (fin 1000000001) false = 0 ∧
    comparar_duplo (carta 1000000000 1 1 1) (carta 1000000001 1 1 1)
      ATR_POPULACAO ATR_AREA = some ⟨2, 2⟩ := by
  have ha : (fin 100 : Fp) ≠ nan := by intro h; cases h
  have hb : (fin (100 + 1 / 10000000) : Fp) ≠ nan := by intro h; cases h
  have h := cmp_long_double_exato (fin 100) (fin (100 + 1 / 10000000))
    (carta 1000000000 1 1 1) (carta 1000000001 1 1 1) ATR_AREA ha hb
  have hpos := DBL_OVF_pos
  have hx : is_nan_or_inf (fin 1000000000) = false :=
    classificado_finito _ (by linarith) (pequeno_lt_DBL_OVF _ (by norm_num))
  have hy : is_nan_or_inf (fin 1000000001) = false :=
    classificado_finito _ (by linarith) (pequeno_lt_DBL_OVF _ (by norm_num))
  refine ⟨ha, hb, ?_, ?_, ?_⟩
  · apply h.2.1.mpr
    simp [Fp.lt]
  · exact cmp_perto _ _ hx hy (by norm_num [abs_of_nonneg, abs_of_neg])
  · have hp1 : attr_value_ld (carta 1000000000 1 1 1) ATR_POPULACAO
        = some (fin 1000000000) := by
      simp [attr_value_ld, carta, ofNat]
    have hp2 : attr_value_ld (carta 1000000001 1 1 1) ATR_POPULACAO
        = some (fin 1000000001) := by
      simp [attr_value_ld, carta, ofNat]
    have hi : (get_attr_info ATR_POPULACAO).inteiro = true := by decide
    have hm : (get_attr_info ATR_POPULACAO).menorVence = false := by decide
    have hc : cmp_long_double (fin 1000000000) (fin 1000000001)
        (get_attr_info ATR_POPULACAO).inteiro = -1 := by
      rw [hi, cmp_long_double_inteiro]
      simp [Fp.lt]
      norm_num
    rw [comparar_duplo_primario _ _ _ _ _ _ hp1 hp2 (by rw [hc]; decide), hc, hm]
    simp

/-- C9 fails at end of input.  When standard input is exhausted,
`ler_opcao_atributo` returns `ATR_INVALIDO` and `menu_comparar` passes it on:
on empty input `comparar_duplo` is called with the invalid sentinel as primary
and as secondary attribute (and reports a tie); when the input ends after the
line `3`, it is called with PIB as primary and the invalid sentinel as secondary
attribute. -/
theorem menu_comparar_fim_de_entrada (c1 c2 : Carta) :
    ler_opcao_atributo ATR_INVALIDO [] = some (ATR_INVALIDO, []) ∧
    menu_comparar (some c1) (some c2) []
      = some ⟨ATR_INVALIDO, ATR_INVALIDO, some ⟨-1, 0⟩, []⟩ ∧
    ler_opcao_atributo ATR_INVALIDO ['3', Char.ofNat 10] = some (ATR_PIB, []) ∧
    (∃ ch, menu_comparar (some c1) (some c2) ['3', Char.ofNat 10] = some ch ∧
      ch.prim = ATR_PIB ∧ ch.sec = ATR_INVALIDO ∧
      ch.resultado = comparar_duplo c1 c2 ATR_PIB ATR_INVALIDO) := by
  have h0 : ∀ e : Atributo, ler_opcao_atributo e [] = some (ATR_INVALIDO, []) := by
    intro e
    simp [ler_opcao_atributo, ler_opcao_atributo_laco, read_line, fgets]
  have h3 : ler_opcao_atributo ATR_INVALIDO ['3', Char.ofNat 10] = some (ATR_PIB, []) := by
    decide
  have hn : ∀ c : Carta, attr_value_ld c ATR_INVALIDO = some nan := by
    intro c
    simp [attr_value_ld]
  have hi : (get_attr_info ATR_INVALIDO).inteiro = false := by decide
  have hc : cmp_long_double nan nan (get_attr_info ATR_INVALIDO).inteiro = 0 := by
    rw [hi]
    simp [cmp_long_double, is_nan_or_inf_nan]
  have hr : comparar_duplo c1 c2 ATR_INVALIDO ATR_INVALIDO = some ⟨-1, 0⟩ := by
    rw [comparar_duplo_secundario c1 c2 _ _ nan nan nan nan (hn c1) (hn c2) (hn c1) (hn c2) hc,
      hc]
    simp
  refine ⟨h0 _, ?_, h3, ?_⟩
  · simp [menu_comparar, h0, hr]
  · exact ⟨⟨ATR_PIB, ATR_INVALIDO, comparar_duplo c1 c2 ATR_PIB ATR_INVALIDO, []⟩,
      by simp [menu_comparar, h3, h0], rfl, rfl, rfl⟩

end SuperTrunfo
